import Mathlib

/-!
Verification development for the address-validation-service repository.

This file embeds, as executable Lean definitions, the parts of the service
that the specification claims are about:

* the circuit breaker (src/utils/CircuitBreaker.ts),
* the LRU cache (dist/utils/LRUCache.js),
* the address preprocessor (src/utils/AddressPreprocessor.ts),
* the USPS client, the geocoding reconciliation sub-pipeline
  (ensureValidGeoCoordinates) and the main reconciliation pipeline
  (correctLocation) from src/server.ts.

JavaScript conventions used throughout the embedding:

* an optional string field whose value may be `undefined` is an
  `Option String`; the empty string is `some ""` — JS truthiness for
  strings (`undefined` and `""` are falsy) is the `truthy` function below;
* timestamps (`Date.now()`) are `Int` values passed explicitly;
* geographic coordinates are modelled as `Int` pairs: the pipeline never
  does arithmetic on them, it only compares them with literal `0` and
  passes them through, so any type with decidable equality to zero is a
  faithful carrier;
* network calls are modelled by oracle parameters giving the outcome the
  call would have produced; thrown JS exceptions are `Except.error`.
-/

/-- JavaScript truthiness for a possibly-undefined string: `undefined`
and `""` are falsy, every other string is truthy. -/
def truthy : Option String → Bool
  | none => false
  | some s => !(s == "")

/-- JS `a || b` for possibly-undefined strings: `a` when truthy, else `b`. -/
def orTruthy (a b : Option String) : Option String :=
  if truthy a then a else b

/-- Spread-merge semantics for one field: an object spread `{...base, ...upd}`
overwrites a field exactly when `upd` has the key (modelled as `some`). -/
def overrideOpt (base upd : Option String) : Option String :=
  match upd with
  | some v => some v
  | none => base

/-- The `cleanObject` helper of server.ts drops fields that are `undefined`
or the empty string. -/
def cleanField (o : Option String) : Option String :=
  if truthy o then o else none

/- ********************************************************************
   Circuit breaker — embedding of src/utils/CircuitBreaker.ts
   (src/unnamed/part_001).
   ******************************************************************** -/

/-- The three circuit states of the CircuitBreaker class. -/
inductive CircuitState where
  | CLOSED
  | OPEN
  | HALF_OPEN
deriving DecidableEq, Repr

/-- Construction options of a CircuitBreaker. -/
structure CBOptions where
  failureThreshold : Nat
  resetTimeout : Int
  monitoringPeriod : Int
  successThreshold : Nat
deriving DecidableEq, Repr

/-- The mutable fields of a CircuitBreaker instance. -/
structure CBState where
  state : CircuitState
  failures : Nat
  successes : Nat
  lastFailureTime : Option Int
  lastStateChange : Int
  totalRequests : Nat
  totalFailures : Nat
  totalSuccesses : Nat
  failureTimestamps : List Int
deriving DecidableEq, Repr

/-- Initial state of a freshly constructed CircuitBreaker. -/
def initialCBState (now : Int) : CBState :=
  ⟨CircuitState.CLOSED, 0, 0, none, now, 0, 0, 0, []⟩

/-- transitionToOpen: sets state OPEN, records the state change time and
clears the consecutive-success counter. -/
def transitionToOpen (s : CBState) (now : Int) : CBState :=
  { s with state := CircuitState.OPEN, lastStateChange := now, successes := 0 }

/-- transitionToHalfOpen: sets state HALF_OPEN, records the time and clears
both the success and failure counters. -/
def transitionToHalfOpen (s : CBState) (now : Int) : CBState :=
  { s with state := CircuitState.HALF_OPEN, lastStateChange := now,
           successes := 0, failures := 0 }

/-- transitionToClosed: sets state CLOSED, records the time and clears the
counters and the failure-timestamp window. -/
def transitionToClosed (s : CBState) (now : Int) : CBState :=
  { s with state := CircuitState.CLOSED, lastStateChange := now,
           failures := 0, successes := 0, failureTimestamps := [] }

/-- onSuccess: bumps the cumulative and consecutive success counters, closes
the breaker when the HALF_OPEN success threshold is reached, and resets the
failure window while CLOSED. -/
def onSuccess (o : CBOptions) (s : CBState) (now : Int) : CBState :=
  let s1 := { s with totalSuccesses := s.totalSuccesses + 1,
                     successes := s.successes + 1 }
  let s2 := if s1.state = CircuitState.HALF_OPEN ∧ o.successThreshold ≤ s1.successes
            then transitionToClosed s1 now else s1
  if s2.state = CircuitState.CLOSED
  then { s2 with failures := 0, failureTimestamps := [] } else s2

/-- onFailure: bumps the failure counters, records the failure timestamp,
prunes the sliding window to the monitoring period, and opens the breaker
from HALF_OPEN (always) or from CLOSED (when the window reaches the failure
threshold). The JS filter keeps timestamps `ts > Date.now() - monitoringPeriod`. -/
def onFailure (o : CBOptions) (s : CBState) (now : Int) : CBState :=
  let ts := (s.failureTimestamps ++ [now]).filter (fun t => now - o.monitoringPeriod < t)
  let s1 := { s with totalFailures := s.totalFailures + 1,
                     failures := s.failures + 1,
                     lastFailureTime := some now,
                     failureTimestamps := ts }
  if s1.state = CircuitState.HALF_OPEN then transitionToOpen s1 now
  else if s1.state = CircuitState.CLOSED then
    (if o.failureThreshold ≤ s1.failureTimestamps.length
     then transitionToOpen s1 now else s1)
  else s1

/-- shouldAttemptReset: true when a failure has been recorded and at least
`resetTimeout` has elapsed since it. -/
def shouldAttemptReset (o : CBOptions) (s : CBState) (now : Int) : Bool :=
  match s.lastFailureTime with
  | none => false
  | some t => decide (o.resetTimeout ≤ now - t)

/-- Observable outcome of one `execute` call: rejected without running the
wrapped operation, or ran it and propagated its success or failure. -/
inductive CBResult where
  | rejected
  | succeeded
  | failed
deriving DecidableEq, Repr

/-- The body of `execute` once the open-state check has been passed: run the
operation (its outcome is the oracle `fnOk`) and record it. -/
def cbAttempt (o : CBOptions) (s : CBState) (now : Int) (fnOk : Bool) :
    CBResult × CBState :=
  if fnOk then (CBResult.succeeded, onSuccess o s now)
  else (CBResult.failed, onFailure o s now)

/-- execute: bump totalRequests, reject immediately while OPEN unless the
reset timeout has elapsed (in which case transition to HALF_OPEN first),
then attempt the wrapped operation. -/
def cbExecute (o : CBOptions) (s : CBState) (now : Int) (fnOk : Bool) :
    CBResult × CBState :=
  let s1 := { s with totalRequests := s.totalRequests + 1 }
  if s1.state = CircuitState.OPEN then
    if shouldAttemptReset o s1 now then
      cbAttempt o (transitionToHalfOpen s1 now) now fnOk
    else (CBResult.rejected, s1)
  else cbAttempt o s1 now fnOk

/-- reset: manually restore the CLOSED state, clearing the window counters
and timestamps. The cumulative counters are not among the fields it writes. -/
def cbReset (s : CBState) (now : Int) : CBState :=
  { s with state := CircuitState.CLOSED, failures := 0, successes := 0,
           lastFailureTime := none, lastStateChange := now,
           failureTimestamps := [] }

/-- Options of the `uspsCircuitBreaker` singleton. -/
def uspsOptions : CBOptions := ⟨5, 30000, 60000, 3⟩

/-- Options of the `googleMapsCircuitBreaker` singleton. -/
def googleMapsOptions : CBOptions := ⟨5, 30000, 60000, 3⟩

/-- Iterate `execute` with a fixed per-call outcome and a fixed clock. -/
def cbIterate (o : CBOptions) (now : Int) (fnOk : Bool) : Nat → CBState → CBState
  | 0, s => s
  | n + 1, s => cbIterate o now fnOk n (cbExecute o s now fnOk).2

/- ********************************************************************
   LRU cache — embedding of dist/utils/LRUCache.js.

   The JS class keeps a `Map` from keys to nodes plus a doubly linked
   list whose head is the most recently used node; the two structures
   always hold exactly the same set of nodes (keys are unique), so the
   abstract state is the node list in recency order (head first).
   ******************************************************************** -/

/-- One cache node: key, value and insertion/update timestamp (ms). -/
structure CacheEntry (α β : Type) where
  key : α
  value : β
  timestamp : Int
deriving DecidableEq, Repr

/-- Cache state: fixed capacity, TTL in milliseconds, and the node list in
most-recently-used-first order. -/
structure LRUCache (α β : Type) where
  capacity : Nat
  ttl : Int
  entries : List (CacheEntry α β)
deriving DecidableEq, Repr

/-- isExpired: a node is expired when `now - timestamp > ttl`. -/
def LRUCache.isExpired (c : LRUCache α β) (now : Int) (e : CacheEntry α β) : Bool :=
  decide (c.ttl < now - e.timestamp)

/-- get: absent key returns nothing; an expired node is removed and treated
as absent; otherwise the node moves to the head (most recently used) and
its value is returned. -/
def LRUCache.get [DecidableEq α] (c : LRUCache α β) (now : Int) (k : α) :
    Option β × LRUCache α β :=
  match c.entries.find? (fun e => e.key = k) with
  | none => (none, c)
  | some e =>
    if c.isExpired now e then
      (none, { c with entries := c.entries.eraseP (fun e2 => decide (e2.key = k)) })
    else
      (some e.value,
       { c with entries := e :: c.entries.eraseP (fun e2 => decide (e2.key = k)) })

/-- set: an existing key gets its value and timestamp refreshed and moves to
the head; a new key is inserted at the head and, when the size then exceeds
the capacity, the tail node is removed. -/
def LRUCache.set [DecidableEq α] (c : LRUCache α β) (now : Int) (k : α) (v : β) :
    LRUCache α β :=
  match c.entries.find? (fun e => e.key = k) with
  | some _ =>
    { c with entries :=
        (⟨k, v, now⟩ : CacheEntry α β) :: c.entries.eraseP (fun e2 => decide (e2.key = k)) }
  | none =>
    let l := (⟨k, v, now⟩ : CacheEntry α β) :: c.entries
    if c.capacity < l.length then { c with entries := l.dropLast }
    else { c with entries := l }

/-- Keys of the cache in recency order. -/
def LRUCache.keys (c : LRUCache α β) : List α := c.entries.map CacheEntry.key

/- ********************************************************************
   Address preprocessor — embedding of src/utils/AddressPreprocessor.ts.

   preprocessStreetAddress applies, in order,

     .replace(/\b([NSEW])\b(?!\.)/g, '$1.')
     .replace(/\b(NE|NW|SE|SW)\b(?!\.)/g, '$1.')
     .replace(/\b(Dr|St|Ave|Rd|Blvd|Ln|Ct|Pl|Cir|Pkwy|Hwy|Ter|Way)\b(?!\.)/g, '$1.')
     .replace(/\s+/g, ' ')
     .trim()

   Each alternative of the three token patterns consists solely of word
   characters, so a match flanked by the two \b assertions is exactly a
   maximal run of word characters equal to that alternative; the (?!\.)
   lookahead requires the character after the run (necessarily a non-word
   character or the end of the string) to differ from '.'.  The scanners
   below walk the string once, accumulate the current maximal word run,
   and on flushing it append a period exactly under those conditions —
   the same successive non-overlapping matches a global regex replace
   performs.
   ******************************************************************** -/

/-- JS word character (regex \w and the \b boundary classifier without the
unicode flag): ASCII letters, digits and underscore. -/
def isWordChar (c : Char) : Bool :=
  c.isAlpha || c.isDigit || c == '_'

/-- JS whitespace (regex \s and the characters String.prototype.trim
removes): the code points matched by \s in ECMAScript. -/
def isWs (c : Char) : Bool :=
  c == ' ' || c == Char.ofNat 9 || c == Char.ofNat 10 || c == Char.ofNat 11 ||
  c == Char.ofNat 12 || c == Char.ofNat 13 || c == Char.ofNat 160 ||
  c == Char.ofNat 5760 || c == Char.ofNat 8192 || c == Char.ofNat 8193 ||
  c == Char.ofNat 8194 || c == Char.ofNat 8195 || c == Char.ofNat 8196 ||
  c == Char.ofNat 8197 || c == Char.ofNat 8198 || c == Char.ofNat 8199 ||
  c == Char.ofNat 8200 || c == Char.ofNat 8201 || c == Char.ofNat 8202 ||
  c == Char.ofNat 8232 || c == Char.ofNat 8233 || c == Char.ofNat 8239 ||
  c == Char.ofNat 8287 || c == Char.ofNat 12288 || c == Char.ofNat 65279

/-- Flush a completed maximal word run: append a period when the run is one
of the pattern alternatives and the following character (`none` at the end
of the string) is not already a period. -/
def flushRun (toks : List (List Char)) (run : List Char) (next : Option Char) : List Char :=
  if run ≠ [] ∧ run ∈ toks ∧ next ≠ some '.' then run ++ ['.'] else run

/-- Scanner for one `\b(alt|…)\b(?!\.)` global replace: accumulate the
current maximal word run, flush it at every non-word character and at the
end of the string. -/
def replTokGo (toks : List (List Char)) (run : List Char) : List Char → List Char
  | [] => flushRun toks run none
  | c :: cs =>
    if isWordChar c then replTokGo toks (run ++ [c]) cs
    else flushRun toks run (some c) ++ c :: replTokGo toks [] cs

/-- One `\b(alt|…)\b(?!\.)` global replace with '$1.'. -/
def replTok (toks : List (List Char)) (s : List Char) : List Char :=
  replTokGo toks [] s

/-- The single-directional alternatives N, S, E, W. -/
def singleDirs : List (List Char) := ["N", "S", "E", "W"].map String.toList

/-- The compound-directional alternatives NE, NW, SE, SW. -/
def compoundDirs : List (List Char) := ["NE", "NW", "SE", "SW"].map String.toList

/-- The street-type alternatives Dr … Way. -/
def streetAbbrevs : List (List Char) :=
  ["Dr", "St", "Ave", "Rd", "Blvd", "Ln", "Ct", "Pl", "Cir", "Pkwy", "Hwy", "Ter", "Way"].map
    String.toList

/-- The `\s+` → single space global replace: every maximal whitespace run
collapses to one space. -/
def collapseWsChar : List Char → List Char
  | [] => []
  | [c] => if isWs c then [' '] else [c]
  | c :: c2 :: cs =>
    if isWs c then
      (if isWs c2 then collapseWsChar (c2 :: cs) else ' ' :: collapseWsChar (c2 :: cs))
    else c :: collapseWsChar (c2 :: cs)

/-- Drop trailing whitespace characters. -/
def dropTrailWs : List Char → List Char
  | [] => []
  | c :: cs =>
    let r := dropTrailWs cs
    if r.isEmpty && isWs c then [] else c :: r

/-- JS String.prototype.trim: drop leading and trailing whitespace. -/
def trimChar (s : List Char) : List Char :=
  dropTrailWs (s.dropWhile isWs)

/-- preprocessStreetAddress of AddressPreprocessor: the three punctuation
replaces, whitespace collapapse and trim, with the falsy (empty) input
returned unchanged. -/
def preprocessStreetAddress (s : List Char) : List Char :=
  if s = [] then s
  else trimChar (collapseWsChar
        (replTok streetAbbrevs (replTok compoundDirs (replTok singleDirs s))))

/-- String wrapper of preprocessStreetAddress. -/
def preprocessStreetAddressS (s : String) : String :=
  (preprocessStreetAddress s.toList).asString

/- Chunk machinery used by the idempotence proof: a string parses into
maximal word-character runs and individual non-word characters. -/

/-- A parsed piece of a string: a maximal word-character run or one
non-word character. -/
inductive Chunk where
  | word : List Char → Chunk
  | sep : Char → Chunk
deriving DecidableEq, Repr

/-- Emit the accumulated run as a word chunk when nonempty. -/
def flushWord (run : List Char) : List Chunk :=
  if run = [] then [] else [Chunk.word run]

/-- Parser accumulator: group word characters into maximal runs. -/
def parseGo (run : List Char) : List Char → List Chunk
  | [] => flushWord run
  | c :: cs =>
    if isWordChar c then parseGo (run ++ [c]) cs
    else flushWord run ++ (Chunk.sep c :: parseGo [] cs)

/-- Parse a string into chunks. -/
def parseChunks (s : List Char) : List Chunk := parseGo [] s

/-- Rebuild a string from chunks. -/
def renderChunks : List Chunk → List Char
  | [] => []
  | Chunk.word w :: rest => w ++ renderChunks rest
  | Chunk.sep c :: rest => c :: renderChunks rest

/-- Does the rendered string of the chunk list start with a period?
Well-formed chunk lists never carry empty words, so only the first two
cases matter for them. -/
def startsWithDot : List Chunk → Bool
  | [] => false
  | Chunk.sep c :: _ => c == '.'
  | Chunk.word [] :: rest => startsWithDot rest
  | Chunk.word (c :: _) :: _ => c == '.'

/-- Chunk-level image of one `\b(alt|…)\b(?!\.)` replace: a word chunk equal
to an alternative gets a period chunk inserted after it unless the rendered
remainder already starts with one. -/
def mapRule (toks : List (List Char)) : List Chunk → List Chunk
  | [] => []
  | Chunk.word w :: rest =>
    if w ∈ toks ∧ startsWithDot rest = false then
      Chunk.word w :: Chunk.sep '.' :: mapRule toks rest
    else Chunk.word w :: mapRule toks rest
  | Chunk.sep c :: rest => Chunk.sep c :: mapRule toks rest

/-- Is this chunk a whitespace separator? -/
def isWsSep : Chunk → Bool
  | Chunk.sep c => isWs c
  | Chunk.word _ => false

/-- Chunk-level image of the `\s+` → space replace. -/
def collapseChunks : List Chunk → List Chunk
  | [] => []
  | [ch] => if isWsSep ch then [Chunk.sep ' '] else [ch]
  | ch :: ch2 :: rest =>
    if isWsSep ch then
      (if isWsSep ch2 then collapseChunks (ch2 :: rest)
       else Chunk.sep ' ' :: collapseChunks (ch2 :: rest))
    else ch :: collapseChunks (ch2 :: rest)

/-- Drop leading whitespace separators. -/
def dropLeadWsChunks : List Chunk → List Chunk
  | [] => []
  | ch :: rest => if isWsSep ch then dropLeadWsChunks rest else ch :: rest

/-- Drop trailing whitespace separators. -/
def dropTrailWsChunks : List Chunk → List Chunk
  | [] => []
  | ch :: rest =>
    let r := dropTrailWsChunks rest
    if r.isEmpty && isWsSep ch then [] else ch :: r

/-- Chunk-level image of trim. -/
def trimChunks (l : List Chunk) : List Chunk :=
  dropTrailWsChunks (dropLeadWsChunks l)

/-- Well-formed chunk lists: words are nonempty runs of word characters,
separators are non-word characters, and no two word chunks are adjacent.
Parsing always produces a well-formed list. -/
def notWordHead : List Chunk → Prop
  | Chunk.word _ :: _ => False
  | _ => True

/-- Well-formedness of a chunk list. -/
def ChunkWF : List Chunk → Prop
  | [] => True
  | Chunk.word w :: rest =>
      w ≠ [] ∧ (∀ c ∈ w, isWordChar c = true) ∧ notWordHead rest ∧ ChunkWF rest
  | Chunk.sep c :: rest => isWordChar c = false ∧ ChunkWF rest

/-- The output property of one replace: every word chunk that is a pattern
alternative is followed by a period. -/
def SatRule (toks : List (List Char)) : List Chunk → Prop
  | [] => True
  | Chunk.word w :: rest => (w ∈ toks → startsWithDot rest = true) ∧ SatRule toks rest
  | Chunk.sep _ :: rest => SatRule toks rest

/-- Head is not a whitespace separator (or the list is empty). -/
def notWsHead : List Chunk → Prop
  | [] => True
  | ch :: _ => isWsSep ch = false

/-- The output property of the whitespace collapse: every whitespace
separator is a single space not followed by another whitespace separator. -/
def Collapsed : List Chunk → Prop
  | [] => True
  | ch :: rest =>
      (isWsSep ch = true → ch = Chunk.sep ' ' ∧ notWsHead rest) ∧ Collapsed rest

/-- No trailing whitespace separator. -/
def noTrailWsC (l : List Chunk) : Prop :=
  match l.getLast? with
  | some ch => isWsSep ch = false
  | none => True

/-- String wrapper of the JS trim. -/
def trimCharS (s : String) : String := (trimChar s.toList).asString

/-- JS String.prototype.toUpperCase, as the character-wise ASCII map. -/
def toUpperS (s : String) : String := (s.toList.map Char.toUpper).asString

/-- JS String.prototype.toLowerCase, as the character-wise ASCII map. -/
def toLowerS (s : String) : String := (s.toList.map Char.toLower).asString

/-- The ZIP_TO_CITY correction table: zip code to (city, state). -/
def ZIP_TO_CITY : List (String × String × String) :=
  [("48852", "Mount Pleasant", "MI")]

/-- The CITY_CORRECTIONS table: per state, city to corrected city, where a
`none` entry is the explicit null marker meaning the city is invalid and the
ZIP lookup must be used. -/
def CITY_CORRECTIONS : List (String × List (String × Option String)) :=
  [("MI",
    [("McBride", none),
     ("St Joseph", some "Saint Joseph"),
     ("St Clair", some "Saint Clair"),
     ("St Johns", some "Saint Johns"),
     ("St Ignace", some "Saint Ignace"),
     ("St Louis", some "Saint Louis"),
     ("Ste Marie", some "Sault Ste Marie"),
     ("Sault Ste Marie", some "Sault Ste Marie")])]

/-- Look a zip code up in ZIP_TO_CITY. -/
def zipLookup (zip : String) : Option (String × String) :=
  (ZIP_TO_CITY.find? (fun e => e.1 == zip)).map (fun e => e.2)

/-- validateCity of AddressPreprocessor: a falsy city falls back to the ZIP
table; a present city is corrected through the per-state table, where the
null marker redirects to the ZIP table (or undefined when the ZIP is not
mapped); otherwise the city is returned unchanged. -/
def validateCity (city state zipCode : Option String) : Option String :=
  if truthy city = false then
    match zipCode with
    | some z => (zipLookup z).map (fun e => e.1)
    | none => none
  else
    match state with
    | some st =>
      (match (CITY_CORRECTIONS.find? (fun e => e.1 == toUpperS st)).map (fun e => e.2) with
       | some corrections =>
         (match corrections.find? (fun e => e.1 == trimCharS (city.getD "")) with
          | some entry =>
            (match entry.2 with
             | none =>
               (match zipCode with
                | some z => (zipLookup z).map (fun e => e.1)
                | none => none)
             | some corrected => some corrected)
          | none => city)
       | none => city)
    | none => city

/-- Input record of correctAddress and preprocessAddress. -/
structure AddressInput where
  streetAddress : Option String
  city : Option String
  state : Option String
  zipCode : Option String
deriving DecidableEq, Repr

/-- Output of preprocessAddress. -/
structure PreprocessedAddress where
  streetAddress : Option String
  city : Option String
  state : Option String
  zipCode : Option String
  cityFromZip : Bool
deriving DecidableEq, Repr

/-- preprocessAddress of AddressPreprocessor: preprocess a truthy street
address, validate/correct the city, record whether the city was synthesized
from the ZIP table, and uppercase a truthy state. -/
def preprocessAddress (p : AddressInput) : PreprocessedAddress :=
  let sa := if truthy p.streetAddress
            then some (preprocessStreetAddressS (p.streetAddress.getD ""))
            else p.streetAddress
  let city2 := validateCity p.city p.state p.zipCode
  let cityFromZip := !(truthy p.city) && truthy city2
  let st := if truthy p.state then some (toUpperS (p.state.getD "")) else p.state
  ⟨sa, city2, st, p.zipCode, cityFromZip⟩

/-- shouldRetryWithoutCity of AddressPreprocessor: retry only on an HTTP 400
rejection when both a city and a ZIP were present. `errStatus` is the
`error.response?.status` field of the thrown error. -/
def shouldRetryWithoutCity (errStatus : Option Nat) (hasCity hasZipCode : Bool) : Bool :=
  (errStatus == some 400) && hasCity && hasZipCode

/- ********************************************************************
   server.ts — helpers, geocoding client and the reconciliation
   pipeline.
   ******************************************************************** -/

/-- JS String.prototype.split(' '): split on every single space, keeping
empty pieces. -/
def splitOnSpaceGo (cur : List Char) : List Char → List (List Char)
  | [] => [cur]
  | c :: cs => if c = ' ' then cur :: splitOnSpaceGo [] cs else splitOnSpaceGo (cur ++ [c]) cs

/-- Capitalize the first character of a word (charAt(0).toUpperCase() +
slice(1); the empty word stays empty). -/
def capFirst (w : List Char) : String :=
  match w with
  | [] => ""
  | c :: cs => (c.toUpper :: cs).asString

/-- toTitleCase of server.ts: lowercase the string, then capitalize the
first character of every space-separated word and rejoin with spaces. -/
def toTitleCase (s : String) : String :=
  String.intercalate " " ((splitOnSpaceGo [] (toLowerS s).toList).map capFirst)

/-- JS `[a, b, …].filter(Boolean).join(', ')`. -/
def joinComma (parts : List (Option String)) : String :=
  String.intercalate ", " ((parts.filterMap id).filter (fun s => s ≠ ""))

/-- A GeoJSON-style point: `coordinates[0]` is the longitude `x`,
`coordinates[1]` the latitude `y`. -/
structure Geo where
  x : Int
  y : Int
deriving DecidableEq, Repr

/-- The sentinel point (0,0) meaning no valid geometry. -/
def sentinelGeo : Geo := ⟨0, 0⟩

/-- Result of parseFirstGmapsResult: the parsed component fields are plain
strings defaulting to empty, streetName and locality may be undefined. -/
structure GeocodingResult where
  geo : Geo
  formattedAddress : String
  city : String
  county : String
  state : String
  zipCode : String
  streetAddress : String
  streetName : Option String
  locality : Option String
deriving DecidableEq, Repr

/-- Result of fetchCountyByCoordinates. -/
structure CountyResult where
  county : String
deriving DecidableEq, Repr

/-- Location part of a GeoValidationResult: the geometry is always present,
the textual fields only on the enriching branches. -/
structure GeoLocation where
  geo : Geo
  formattedAddress : Option String
  city : Option String
  county : Option String
  state : Option String
  zipCode : Option String
  streetAddress : Option String
  streetName : Option String
deriving DecidableEq, Repr

/-- Result of ensureValidGeoCoordinates. -/
structure GeoValidationResult where
  status : Bool
  location : GeoLocation
  error : Option String
deriving DecidableEq, Repr

/-- Outcomes of the external calls the pipeline performs.  Each field gives
the value the corresponding already-error-caught fetch helper of server.ts
resolves to (those helpers catch their own errors and resolve to null, so
`Option` is their exact result type): `reverse` is fetchAddressFromCoordinates,
`countyLookup` is fetchCountyByCoordinates, `forward` is
fetchGeoCoordinatesStandard, and `norm` is the pure normalizeAddress
function of utils/normalizeAddress (its internal definition is irrelevant
to every claim, only the fact that it is applied to the final formatted
address). -/
structure Oracles where
  reverse : Geo → Option GeocodingResult
  countyLookup : Geo → Option CountyResult
  forward : String → Option GeocodingResult
  norm : String → String

/-- fetchGeoCoordinates of server.ts: forward geocode, then, when the result
lacks a county, splice in the county from a county-only reverse lookup at
the resolved coordinates. -/
def fetchGeoCoordinates (O : Oracles) (formattedAddress : String) : Option GeocodingResult :=
  match O.forward formattedAddress with
  | none => none
  | some r =>
    if r.county == "" then
      match O.countyLookup r.geo with
      | some cr => if cr.county ≠ "" then some { r with county := cr.county } else some r
      | none => some r
    else some r

/-- The working geometry of ensureValidGeoCoordinates: the explicit `geo`
argument, or a point built from numeric lat/lng. -/
def currentGeoOf (lat lng : Option Int) (geo : Option Geo) : Option Geo :=
  match geo with
  | some g => some g
  | none =>
    match lat, lng with
    | some la, some ln => some ⟨ln, la⟩
    | _, _ => none

/-- The forward-geocoding tail of ensureValidGeoCoordinates: reached when no
usable geometry is present; forward-geocodes a truthy formatted address and
falls back to the sentinel shape. -/
def fallbackForward (O : Oracles) (formattedAddress : Option String) : GeoValidationResult :=
  if truthy formattedAddress then
    match fetchGeoCoordinates O (formattedAddress.getD "") with
    | some fd =>
      if fd.geo.x = 0 ∧ fd.geo.y = 0 then
        ⟨false, ⟨sentinelGeo, formattedAddress, none, none, none, none, none, none⟩,
         some "Failed to fetch valid geo coordinates with the provided formatted address."⟩
      else
        ⟨true, ⟨fd.geo, some fd.formattedAddress, some fd.city, some fd.county,
                some fd.state, some fd.zipCode, some fd.streetAddress, fd.streetName⟩,
         none⟩
    | none =>
      ⟨false, ⟨sentinelGeo, formattedAddress, none, none, none, none, none, none⟩,
       some "Failed to fetch valid geo coordinates with the provided formatted address."⟩
  else ⟨false, ⟨sentinelGeo, formattedAddress, none, none, none, none, none, none⟩, none⟩

/-- ensureValidGeoCoordinates of server.ts.  A non-sentinel working geometry
with a truthy formatted address returns immediately; without one it reverse
geocodes, returning status true even when the reverse lookup finds nothing
(only the geometry and a diagnostic error are returned then).  Without a
usable geometry the forward tail runs. -/
def ensureValidGeoCoordinates (O : Oracles) (lat lng : Option Int) (geo : Option Geo)
    (formattedAddress : Option String) : GeoValidationResult :=
  match currentGeoOf lat lng geo with
  | some g =>
    if g.x = 0 ∧ g.y = 0 then fallbackForward O formattedAddress
    else
      if truthy formattedAddress then
        ⟨true, ⟨g, formattedAddress, none, none, none, none, none, none⟩, none⟩
      else
        match O.reverse g with
        | none =>
          ⟨true, ⟨g, none, none, none, none, none, none, none⟩,
           some "Reverse geocoding failed: no address returned."⟩
        | some rev =>
          ⟨true, ⟨g, some rev.formattedAddress, some rev.city, some rev.county,
                  some rev.state, some rev.zipCode, some rev.streetAddress,
                  rev.streetName⟩, none⟩
  | none => fallbackForward O formattedAddress

/- ********************************************************************
   correctLocation — the reconciliation pipeline of server.ts.
   ******************************************************************** -/

/-- Input record of correctLocation (the fields of LocationReturn the
pipeline reads). -/
structure LocationInput where
  streetAddress : Option String
  city : Option String
  state : Option String
  zipCode : Option String
  county : Option String
  formattedAddress : Option String
  unformattedAddress : Option String
  locality : Option String
  geo : Option Geo
deriving DecidableEq, Repr

/-- Location part of the correctAddress result (fields already passed
through cleanObject). -/
structure AddressResult where
  streetAddress : Option String
  city : Option String
  state : Option String
  zipCode : Option String
  formattedAddress : Option String
  unformattedAddress : Option String
deriving DecidableEq, Repr

/-- Result of correctAddress. -/
structure AddressCorrectionResponse where
  location : AddressResult
  status : Bool
  error : Option String
deriving DecidableEq, Repr

/-- Result record of correctLocation, built field by field in server.ts. -/
structure LocationCorrectionResult where
  streetAddress : Option String
  city : Option String
  state : Option String
  zipCode : Option String
  county : Option String
  geo : Geo
  formattedAddress : Option String
  normalizedAddress : Option String
  unformattedAddress : Option String
  status : Bool
  error : Option String
deriving DecidableEq, Repr

/-- hasCoordinates of correctLocation: a geometry is present and both of its
coordinates differ from 0. -/
def hasCoordinatesOf (loc : LocationInput) : Bool :=
  match loc.geo with
  | some g => !(g.x == 0) && !(g.y == 0)
  | none => false

/-- hasCityOrZip of correctLocation. -/
def hasCityOrZipOf (loc : LocationInput) : Bool :=
  truthy loc.city || truthy loc.zipCode

/-- USPS standardization is skipped exactly when the original record has
coordinates but neither city nor ZIP (both flags are computed from the
original input before the reverse-geocoding enrichment). -/
def skipUSPS (loc : LocationInput) : Bool :=
  hasCoordinatesOf loc && !(hasCityOrZipOf loc)

/-- Step 2 of the pipeline: for a coordinates-only input, reverse geocode
first and merge city/zip/county/formattedAddress into the working record
with JS `a || b` semantics. -/
def enrichedLoc (O : Oracles) (loc : LocationInput) : LocationInput :=
  if hasCoordinatesOf loc && !(hasCityOrZipOf loc) then
    match loc.geo with
    | some g =>
      match O.reverse g with
      | some r =>
        { loc with city := orTruthy (some r.city) loc.city,
                   zipCode := orTruthy (some r.zipCode) loc.zipCode,
                   county := orTruthy (some r.county) loc.county,
                   formattedAddress := orTruthy (some r.formattedAddress) loc.formattedAddress }
      | none => loc
    | none => loc
  else loc

/-- The uspsResult actually used by the pipeline: the synthesized vacuous
success `{location: {}, status: true}` when USPS is skipped, otherwise the
result of the correctAddress call (an oracle parameter here). -/
def uspsUsed (usps : AddressCorrectionResponse) (loc : LocationInput) :
    AddressCorrectionResponse :=
  if skipUSPS loc then ⟨⟨none, none, none, none, none, none⟩, true, none⟩ else usps

/-- Spread-merge of the USPS location onto the working record
(`{ ...location, ...uspsResult.location }`). -/
def mergeUSPS (l : LocationInput) (r : AddressResult) : LocationInput :=
  { l with streetAddress := overrideOpt l.streetAddress r.streetAddress,
           city := overrideOpt l.city r.city,
           state := overrideOpt l.state r.state,
           zipCode := overrideOpt l.zipCode r.zipCode,
           formattedAddress := overrideOpt l.formattedAddress r.formattedAddress,
           unformattedAddress := overrideOpt l.unformattedAddress r.unformattedAddress }

/-- The `/\bCounty\b/gi` replace of correctLocation followed by trim: every
maximal word run spelling "county" case-insensitively is removed. -/
def removeCountyChunks : List Chunk → List Chunk
  | [] => []
  | Chunk.word w :: rest =>
    if (w.map Char.toLower) = "county".toList then removeCountyChunks rest
    else Chunk.word w :: removeCountyChunks rest
  | Chunk.sep c :: rest => Chunk.sep c :: removeCountyChunks rest

/-- `county.replace(/\bCounty\b/gi, '').trim()`. -/
def stripCountyWord (s : String) : String :=
  (trimChar (renderChunks (removeCountyChunks (parseChunks s.toList)))).asString

/-- Steps 1 to 6 of the pipeline: reverse-geocoding enrichment, USPS merge,
county-word strip, and synthesis of a formatted address when none is
present. The result is the working record handed to the geocoding stage. -/
def preGeoLoc (O : Oracles) (usps : AddressCorrectionResponse) (loc : LocationInput) :
    LocationInput :=
  let l1 := enrichedLoc O loc
  let l2 := mergeUSPS l1 (uspsUsed usps loc).location
  let l3 := match l2.county with
            | some s => { l2 with county := some (stripCountyWord s) }
            | none => l2
  let synth := joinComma [l3.streetAddress, l3.city, l3.state, l3.zipCode]
  if truthy l3.formattedAddress then l3
  else { l3 with formattedAddress := some synth }

/-- The geoResult computed inside correctLocation: ensureValidGeoCoordinates
applied to the working record's geometry and formatted address. -/
def geoResultOf (O : Oracles) (usps : AddressCorrectionResponse) (loc : LocationInput) :
    GeoValidationResult :=
  let l := preGeoLoc O usps loc
  ensureValidGeoCoordinates O none none l.geo l.formattedAddress

/-- Geo merge, server.ts line 761-764: the geometry is always overwritten by
the geocode result; the formatted address by JS or-assignment. -/
def mg1 (l : LocationInput) (g : GeoValidationResult) : LocationInput :=
  { l with geo := some g.location.geo,
           formattedAddress := orTruthy g.location.formattedAddress l.formattedAddress }

/-- City fill, server.ts line 767: only when still falsy. -/
def mg2 (g : GeoValidationResult) (l : LocationInput) : LocationInput :=
  if !(truthy l.city) && truthy g.location.city then { l with city := g.location.city } else l

/-- State fill, server.ts line 771: only when still falsy. -/
def mg3 (g : GeoValidationResult) (l : LocationInput) : LocationInput :=
  if !(truthy l.state) && truthy g.location.state then { l with state := g.location.state } else l

/-- Zip fill, server.ts line 774: only when still falsy. -/
def mg4 (g : GeoValidationResult) (l : LocationInput) : LocationInput :=
  if !(truthy l.zipCode) && truthy g.location.zipCode then { l with zipCode := g.location.zipCode }
  else l

/-- Street address, server.ts line 778: overwritten whenever the geocode
result carries a truthy one — with no still-absent guard. -/
def mg5 (g : GeoValidationResult) (l : LocationInput) : LocationInput :=
  if truthy g.location.streetAddress then { l with streetAddress := g.location.streetAddress }
  else l

/-- County, server.ts lines 781-794: taken from the geocode result when
truthy, otherwise a second-chance county-only reverse lookup runs when the
merged geometry has a nonzero first coordinate. -/
def mg6 (O : Oracles) (g : GeoValidationResult) (l : LocationInput) : LocationInput :=
  if truthy g.location.county then { l with county := g.location.county }
  else
    match l.geo with
    | some gg =>
      if gg.x ≠ 0 then
        match O.countyLookup gg with
        | some cr => if cr.county ≠ "" then { l with county := some cr.county } else l
        | none => l
      else l
    | none => l

/-- Locality scratch field removal, server.ts line 795. -/
def mg7 (l : LocationInput) : LocationInput :=
  { l with locality := none }

/-- The whole geocode-merge block of correctLocation (lines 761-795). -/
def mergeGeoFields (O : Oracles) (l : LocationInput) (g : GeoValidationResult) : LocationInput :=
  mg7 (mg6 O g (mg5 g (mg4 g (mg3 g (mg2 g (mg1 l g))))))

/-- Completeness of the merged record, server.ts lines 804-807. -/
def hasCompleteAddressOf (l : LocationInput) : Bool :=
  truthy l.streetAddress && (truthy l.city || truthy l.zipCode) && truthy l.state

/-- correctLocation of server.ts, with the result of the correctAddress call
supplied as an oracle (`usps`; it is ignored when USPS is skipped) and the
geocoding calls supplied through `O`. -/
def correctLocation (O : Oracles) (usps : AddressCorrectionResponse) (loc : LocationInput) :
    LocationCorrectionResult :=
  let u := uspsUsed usps loc
  let l := preGeoLoc O usps loc
  let g := geoResultOf O usps loc
  let l7 := mergeGeoFields O l g
  let err := orTruthy u.error g.error
  let status := g.status && (u.status || hasCompleteAddressOf l7
                             || (hasCoordinatesOf loc && !(hasCityOrZipOf loc)))
  let normalized := if truthy l7.formattedAddress
                    then some (O.norm (l7.formattedAddress.getD "")) else none
  ⟨l7.streetAddress, l7.city, l7.state, l7.zipCode, l7.county, g.location.geo,
   l7.formattedAddress, normalized, l7.unformattedAddress, status,
   if truthy err then err else none⟩

/- ********************************************************************
   USPS client — getUSPSToken and correctAddress of server.ts, with the
   exception flow explicit: a JS rejection that no enclosing try/catch
   handles is `Except.error`.  The request deduplicator shares a single
   underlying call (and its resolution or rejection) among concurrent
   callers, so for one call it is the identity and is not modelled.
   ******************************************************************** -/

/-- The module-level USPS token cache (`cachedToken`, `tokenExpiresAt`).
A NaN expiry (produced when the token endpoint resolves without an
`expires_in`) is modelled as `none`: both are falsy in the freshness test. -/
structure TokenState where
  cachedToken : Option String
  tokenExpiresAt : Option Int
deriving DecidableEq, Repr

/-- Outcome of the HTTP call to the token endpoint: a resolved response
carrying a token, a resolved response without one (axios is configured not
to throw below status 500), or a rejection (network error or 5xx). -/
inductive TokenOutcome where
  | ok (token : String) (expiresIn : Int)
  | badResponse
  | thrown (msg : String)
deriving DecidableEq, Repr

/-- The token freshness test `cachedToken && tokenExpiresAt &&
Date.now() < tokenExpiresAt - 60000` (both falsy values and the numeric
comparison modelled). -/
def tokenFresh (ts : TokenState) (now : Int) : Bool :=
  truthy ts.cachedToken &&
    (match ts.tokenExpiresAt with
     | some e => !(e == 0) && decide (now < e - 60000)
     | none => false)

/-- The breaker-wrapped token fetch: the happy path caches and returns the
token; a tokenless response caches `undefined` and returns it (a breaker
success — nothing was thrown); a rejection is recorded as a breaker failure
and rethrown; an OPEN breaker rejects with the CircuitBreakerOpenError
before the fetch runs. -/
def attemptToken (ts : TokenState) (cb : CBState) (now : Int) (outcome : TokenOutcome) :
    Except String (Option String) × TokenState × CBState :=
  let cb1 := { cb with totalRequests := cb.totalRequests + 1 }
  if cb1.state = CircuitState.OPEN ∧ shouldAttemptReset uspsOptions cb1 now = false then
    (Except.error "Circuit breaker is OPEN for USPS API", ts, cb1)
  else
    let cb2 := if cb1.state = CircuitState.OPEN then transitionToHalfOpen cb1 now else cb1
    match outcome with
    | TokenOutcome.ok t e =>
      (Except.ok (some t), ⟨some t, some (now + e * 1000)⟩, onSuccess uspsOptions cb2 now)
    | TokenOutcome.badResponse =>
      (Except.ok none, ⟨none, none⟩, onSuccess uspsOptions cb2 now)
    | TokenOutcome.thrown msg =>
      (Except.error msg, ts, onFailure uspsOptions cb2 now)

/-- getUSPSToken of server.ts: return a fresh cached token, otherwise fetch
one under deduplication and the USPS circuit breaker.  Nothing catches a
rejection here, so it propagates to the caller. -/
def getUSPSToken (ts : TokenState) (cb : CBState) (now : Int) (outcome : TokenOutcome) :
    Except String (Option String) × TokenState × CBState :=
  if tokenFresh ts now then (Except.ok ts.cachedToken, ts, cb)
  else attemptToken ts cb now outcome

/-- The USPS address object of a successful lookup response. -/
structure USPSAddress where
  streetAddress : Option String
  streetAddressAbbreviation : Option String
  city : Option String
  state : Option String
  ZIPCode : Option String
deriving DecidableEq, Repr

/-- Outcome of one USPS address-lookup HTTP call: a resolved response with
an address object, a resolved response without one (4xx bodies resolve
because axios accepts status < 500), or a rejection whose
`error.response?.status` is `respStatus`. -/
inductive USPSCallOutcome where
  | success (addr : USPSAddress)
  | noAddress
  | thrown (msg : String) (respStatus : Option Nat)
deriving DecidableEq, Repr

/-- buildFormattedAddress of server.ts. -/
def buildFormattedAddress (addr : USPSAddress) : String :=
  let base := if truthy addr.streetAddressAbbreviation
              then toTitleCase (addr.streetAddressAbbreviation.getD "")
              else if truthy addr.streetAddress
                   then toTitleCase (addr.streetAddress.getD "") else ""
  let base := if truthy addr.city then base ++ ", " ++ toTitleCase (addr.city.getD "")
              else base
  let base := if truthy addr.state then base ++ ", " ++ addr.state.getD "" else base
  if truthy addr.ZIPCode then base ++ " " ++ addr.ZIPCode.getD "" else base

/-- Fields updated from a USPS address object (shared by the main call and
the ZIP-only retry): street and city are title-cased with fallback to the
current values, state and ZIP are taken verbatim from the response. -/
def applyUSPSAddress (addr : USPSAddress) (sa city : Option String) :
    Option String × Option String × Option String × Option String :=
  (if truthy addr.streetAddress then some (toTitleCase (addr.streetAddress.getD ""))
   else some (toTitleCase (sa.getD "")),
   if truthy addr.city then some (toTitleCase (addr.city.getD ""))
   else if truthy city then some (toTitleCase (city.getD "")) else none,
   addr.state,
   addr.ZIPCode)

/-- Run one breaker-wrapped USPS lookup call, as the try blocks of
correctAddress observe it: either a value resolves, or an error message is
caught (this includes the CircuitBreakerOpenError — the lookup calls,
unlike the token call, sit inside try/catch). -/
def runUSPSCall (cb : CBState) (now : Int) (outcome : USPSCallOutcome) :
    Except (String × Option Nat) (Option USPSAddress) × CBState :=
  let cb1 := { cb with totalRequests := cb.totalRequests + 1 }
  if cb1.state = CircuitState.OPEN ∧ shouldAttemptReset uspsOptions cb1 now = false then
    (Except.error ("Circuit breaker is OPEN for USPS API", none), cb1)
  else
    let cb2 := if cb1.state = CircuitState.OPEN then transitionToHalfOpen cb1 now else cb1
    match outcome with
    | USPSCallOutcome.success addr => (Except.ok (some addr), onSuccess uspsOptions cb2 now)
    | USPSCallOutcome.noAddress => (Except.ok none, onSuccess uspsOptions cb2 now)
    | USPSCallOutcome.thrown msg st => (Except.error (msg, st), onFailure uspsOptions cb2 now)

/-- correctAddress of server.ts.  `tokenOutcome` is the token endpoint
outcome, `mainOutcome` and `retryOutcome` those of the address lookup and
of the ZIP-only retry.  The missing-fields and token-unavailable paths
return failure results; a rejection of getUSPSToken is awaited outside any
try/catch and therefore propagates as `Except.error`. -/
def correctAddress (ts : TokenState) (cb : CBState) (now : Int)
    (tokenOutcome : TokenOutcome) (mainOutcome retryOutcome : USPSCallOutcome)
    (input : AddressInput) :
    Except String AddressCorrectionResponse × TokenState × CBState :=
  let unformatted := joinComma [input.streetAddress, input.city, input.state, input.zipCode]
  let pre := preprocessAddress ⟨cleanField input.streetAddress, cleanField input.city,
                                cleanField input.state, cleanField input.zipCode⟩
  let sa := pre.streetAddress
  let city := pre.city
  let st := pre.state
  let zip := pre.zipCode
  if truthy sa = false ∨ (truthy city = false ∧ truthy zip = false) then
    (Except.ok ⟨⟨cleanField (sa.map toTitleCase), cleanField (city.map toTitleCase),
                 cleanField st, cleanField zip, none, cleanField (some unformatted)⟩,
      false, some "Missing required fields for USPS address correction."⟩, ts, cb)
  else
    match getUSPSToken ts cb now tokenOutcome with
    | (Except.error e, ts1, cb1) => (Except.error e, ts1, cb1)
    | (Except.ok tok, ts1, cb1) =>
      if truthy tok = false then
        (Except.ok ⟨⟨cleanField (some (toTitleCase (sa.getD ""))),
                     cleanField (some (toTitleCase (city.getD ""))),
                     cleanField st, cleanField zip, none, cleanField (some unformatted)⟩,
          false, some "Could not retrieve USPS access token."⟩, ts1, cb1)
      else
        match runUSPSCall cb1 now mainOutcome with
        | (Except.ok (some addr), cb2) =>
          let f := applyUSPSAddress addr sa city
          (Except.ok ⟨⟨cleanField (f.1.map toTitleCase), cleanField (f.2.1.map toTitleCase),
                       cleanField f.2.2.1, cleanField f.2.2.2,
                       cleanField (some (buildFormattedAddress addr)),
                       cleanField (some unformatted)⟩, true, none⟩, ts1, cb2)
        | (Except.ok none, cb2) =>
          (Except.ok ⟨⟨cleanField (sa.map toTitleCase), cleanField (city.map toTitleCase),
                       cleanField st, cleanField zip, none, cleanField (some unformatted)⟩,
            false, none⟩, ts1, cb2)
        | (Except.error (msg, respStatus), cb2) =>
          if shouldRetryWithoutCity respStatus (truthy city) (truthy zip) then
            match runUSPSCall cb2 now retryOutcome with
            | (Except.ok (some addr), cb3) =>
              let f := applyUSPSAddress addr sa city
              (Except.ok ⟨⟨cleanField (f.1.map toTitleCase), cleanField (f.2.1.map toTitleCase),
                           cleanField f.2.2.1, cleanField f.2.2.2,
                           cleanField (some (buildFormattedAddress addr)),
                           cleanField (some unformatted)⟩, true, none⟩, ts1, cb3)
            | (Except.ok none, cb3) =>
              (Except.ok ⟨⟨cleanField (sa.map toTitleCase), cleanField (city.map toTitleCase),
                           cleanField st, cleanField zip, none, cleanField (some unformatted)⟩,
                false, none⟩, ts1, cb3)
            | (Except.error (rmsg, _), cb3) =>
              (Except.ok ⟨⟨cleanField (sa.map toTitleCase), cleanField (city.map toTitleCase),
                           cleanField st, cleanField zip, none, cleanField (some unformatted)⟩,
                false, some ("Error fetching USPS Address API (with retry): " ++ rmsg)⟩,
               ts1, cb3)
          else
            (Except.ok ⟨⟨cleanField (sa.map toTitleCase), cleanField (city.map toTitleCase),
                         cleanField st, cleanField zip, none, cleanField (some unformatted)⟩,
              false, some ("Error fetching USPS Address API: " ++ msg)⟩, ts1, cb2)

/-- The USPS input correctLocation builds from the enriched working record:
only truthy fields are passed. -/
def uspsInputOf (l : LocationInput) : AddressInput :=
  ⟨cleanField l.streetAddress, cleanField l.city, cleanField l.state, cleanField l.zipCode⟩

/-- correctLocation with the USPS stage executed rather than supplied: a
rejection of correctAddress (nothing in correctLocation catches it) makes
the whole call reject. -/
def correctLocationE (O : Oracles) (ts : TokenState) (cb : CBState) (now : Int)
    (tokenOutcome : TokenOutcome) (mainOutcome retryOutcome : USPSCallOutcome)
    (loc : LocationInput) :
    Except String LocationCorrectionResult × TokenState × CBState :=
  if skipUSPS loc then
    (Except.ok (correctLocation O ⟨⟨none, none, none, none, none, none⟩, true, none⟩ loc),
     ts, cb)
  else
    match correctAddress ts cb now tokenOutcome mainOutcome retryOutcome
      (uspsInputOf (enrichedLoc O loc)) with
    | (Except.error e, ts1, cb1) => (Except.error e, ts1, cb1)
    | (Except.ok r, ts1, cb1) => (Except.ok (correctLocation O r loc), ts1, cb1)

/-- Concrete CB state used by witnesses: OPEN after two failures at time 0
under a threshold-2 breaker. -/
def cbWitnessOptions : CBOptions := ⟨2, 10, 100, 2⟩

/-- An OPEN state reached by running two failing calls from the initial
state. -/
def cbOpenState : CBState := cbIterate cbWitnessOptions 0 false 2 (initialCBState 0)

/-- A HALF_OPEN state with a clean success counter. -/
def cbHalfOpenState : CBState :=
  ⟨CircuitState.HALF_OPEN, 0, 0, some 0, 0, 2, 2, 0, []⟩

/-- The example run of the LRU claim: capacity 3, insert keys 1, 2, 3, touch
key 1 via get, insert key 4. -/
def lruScenario : LRUCache Nat Nat :=
  LRUCache.set
    (((((⟨3, 1000000, []⟩ : LRUCache Nat Nat).set 10 1 11).set 20 2 12).set 30 3 13).get
      40 1).2
    50 4 14

/-- A concrete two-entry cache at capacity used by the LRU witness. -/
def lruWitnessCache : LRUCache Nat Nat :=
  ⟨2, 1000, [⟨1, 10, 0⟩, ⟨0, 5, 0⟩]⟩

/-- Oracle whose every lookup fails, used by witnesses. -/
def failingOracles : Oracles :=
  { reverse := fun _ => none,
    countyLookup := fun _ => none,
    forward := fun _ => none,
    norm := id }

/-- Oracle for the merge-precedence scenarios: forward geocoding resolves to
a result whose streetAddress is "B". -/
def c1Oracles : Oracles :=
  { reverse := fun _ => none,
    countyLookup := fun _ => none,
    forward := fun _ =>
      some ⟨⟨-1, 2⟩, "X St, Springfield", "Springfield", "Cnty", "IL", "62704", "B",
            none, none⟩,
    norm := id }

/-- Postal-stage result that set streetAddress "A", city "Springfield" and a
formatted address. -/
def c1Usps : AddressCorrectionResponse :=
  ⟨⟨some "A", some "Springfield", none, none, some "X St", none⟩, true, none⟩

/-- An input record with no fields at all. -/
def emptyLoc : LocationInput := ⟨none, none, none, none, none, none, none, none, none⟩

/-- A coordinates-only input record. -/
def coordsLoc : LocationInput :=
  ⟨none, none, none, none, none, none, none, none, some ⟨5, 6⟩⟩

/-- A vacuous postal success. -/
def emptyUsps : AddressCorrectionResponse := ⟨⟨none, none, none, none, none, none⟩, true, none⟩

/-- The OPEN USPS breaker reached by five failing calls at time 0. -/
def cbOpenUSPS : CBState := cbIterate uspsOptions 0 false 5 (initialCBState 0)

/-- A complete postal input. -/
def c3Input : AddressInput := ⟨some "1 Main St", some "Lansing", some "MI", some "48852"⟩

/-- The same record as a correctLocation input (no geometry, so USPS runs). -/
def c3Loc : LocationInput :=
  ⟨some "1 Main St", some "Lansing", some "MI", some "48852", none, none, none, none, none⟩

/- ********************************************************************
   Theorems.  Helper lemmas come first, then one theorem per claim
   (with its witness or counterexample where required).
   ******************************************************************** -/

theorem onSuccess_totalRequests (o : CBOptions) (s : CBState) (now : Int) :
    (onSuccess o s now).totalRequests = s.totalRequests := by
  unfold onSuccess transitionToClosed
  dsimp only
  split <;> split <;> rfl

theorem onFailure_totalRequests (o : CBOptions) (s : CBState) (now : Int) :
    (onFailure o s now).totalRequests = s.totalRequests := by
  unfold onFailure transitionToOpen
  dsimp only
  split
  · rfl
  · split
    · split <;> rfl
    · rfl

theorem cbAttempt_totalRequests (o : CBOptions) (s : CBState) (now : Int) (fnOk : Bool) :
    (cbAttempt o s now fnOk).2.totalRequests = s.totalRequests := by
  unfold cbAttempt
  split
  · exact onSuccess_totalRequests o s now
  · exact onFailure_totalRequests o s now

theorem cbExecute_totalRequests (o : CBOptions) (s : CBState) (now : Int) (fnOk : Bool) :
    (cbExecute o s now fnOk).2.totalRequests = s.totalRequests + 1 := by
  unfold cbExecute
  dsimp only
  split
  · split
    · rw [cbAttempt_totalRequests, transitionToHalfOpen]
    · rfl
  · rw [cbAttempt_totalRequests]

theorem filter_replicate_of_pos (p : Int → Bool) (t : Int) (hp : p t = true) :
    ∀ m, (List.replicate m t).filter p = List.replicate m t := by
  intro m
  induction m with
  | zero => rfl
  | succ n ih => simp [List.replicate_succ, List.filter_cons, hp, ih]

theorem closed_failure_step (o : CBOptions) (s : CBState) (t : Int) (m : Nat)
    (hst : s.state = CircuitState.CLOSED)
    (hts : s.failureTimestamps = List.replicate m t)
    (hper : 0 < o.monitoringPeriod) :
    (cbExecute o s t false).2 =
      (if o.failureThreshold ≤ m + 1 then
        transitionToOpen
          { s with totalRequests := s.totalRequests + 1,
                   totalFailures := s.totalFailures + 1,
                   failures := s.failures + 1,
                   lastFailureTime := some t,
                   failureTimestamps := List.replicate (m + 1) t } t
       else
        { s with totalRequests := s.totalRequests + 1,
                 totalFailures := s.totalFailures + 1,
                 failures := s.failures + 1,
                 lastFailureTime := some t,
                 failureTimestamps := List.replicate (m + 1) t }) := by
  have hfil : (s.failureTimestamps ++ [t]).filter
      (fun x => decide (t - o.monitoringPeriod < x)) = List.replicate (m + 1) t := by
    rw [hts, ← List.replicate_succ' m t]
    exact filter_replicate_of_pos _ t (by simp; omega) (m + 1)
  unfold cbExecute cbAttempt onFailure
  dsimp only
  rw [if_neg (by rw [hst]; intro h; exact CircuitState.noConfusion h)]
  rw [if_neg (by simp)]
  rw [hfil]
  dsimp only
  rw [if_neg (by rw [hst]; intro h; exact CircuitState.noConfusion h)]
  rw [if_pos hst]
  simp only [List.length_replicate]

theorem closed_failure_progress (o : CBOptions) (t : Int) (hper : 0 < o.monitoringPeriod) :
    ∀ (j m : Nat) (s : CBState), s.state = CircuitState.CLOSED →
      s.failureTimestamps = List.replicate m t → m + j = o.failureThreshold → 1 ≤ j →
      (cbIterate o t false j s).state = CircuitState.OPEN := by
  intro j
  induction j with
  | zero => intro m s _ _ _ h1; omega
  | succ n ih =>
    intro m s hst hts hsum _
    rw [cbIterate]
    rw [closed_failure_step o s t m hst hts hper]
    by_cases hth : o.failureThreshold ≤ m + 1
    · rw [if_pos hth]
      have hn : n = 0 := by omega
      subst hn
      rw [cbIterate]
      rfl
    · rw [if_neg hth]
      exact ih (m + 1) _ hst rfl (by omega) (by omega)

theorem halfopen_success_step (o : CBOptions) (s : CBState) (now : Int)
    (hst : s.state = CircuitState.HALF_OPEN) :
    (cbExecute o s now true).2 =
      (if o.successThreshold ≤ s.successes + 1 then
        { s with state := CircuitState.CLOSED, lastStateChange := now,
                 totalRequests := s.totalRequests + 1,
                 totalSuccesses := s.totalSuccesses + 1,
                 successes := 0, failures := 0, failureTimestamps := [] }
       else
        { s with totalRequests := s.totalRequests + 1,
                 totalSuccesses := s.totalSuccesses + 1,
                 successes := s.successes + 1 }) := by
  unfold cbExecute cbAttempt onSuccess transitionToClosed
  dsimp only
  rw [hst]
  by_cases hth : o.successThreshold ≤ s.successes + 1
  · simp [hth]
  · simp [hth]

theorem halfopen_success_progress (o : CBOptions) (now : Int) :
    ∀ (j : Nat) (s : CBState), s.state = CircuitState.HALF_OPEN →
      s.successes + j = o.successThreshold → 1 ≤ j →
      (cbIterate o now true j s).state = CircuitState.CLOSED := by
  intro j
  induction j with
  | zero => intro s _ _ h1; omega
  | succ n ih =>
    intro s hst hsum _
    rw [cbIterate]
    rw [halfopen_success_step o s now hst]
    by_cases hth : o.successThreshold ≤ s.successes + 1
    · rw [if_pos hth]
      have hn : n = 0 := by omega
      subst hn
      rw [cbIterate]
    · rw [if_neg hth]
      refine ih _ hst ?_ (by omega)
      show s.successes + 1 + n = o.successThreshold
      omega

/-- C6: the circuit breaker state machine.  (1) From CLOSED with an empty
window, `failureThreshold` failures within the monitoring period leave the
breaker OPEN.  (2) While OPEN, a call arriving once at least `resetTimeout`
has elapsed since the last failure is not rejected: the breaker first
transitions to HALF_OPEN (the state handed to the attempt is HALF_OPEN) and
the wrapped operation runs.  (3) From HALF_OPEN, `successThreshold`
consecutive successful calls close the breaker.  (4) Any failed call in
HALF_OPEN reopens it immediately. -/
theorem circuit_breaker_transitions :
    (∀ (o : CBOptions) (s : CBState) (t : Int),
        s.state = CircuitState.CLOSED → s.failureTimestamps = [] →
        0 < o.monitoringPeriod → 1 ≤ o.failureThreshold →
        (cbIterate o t false o.failureThreshold s).state = CircuitState.OPEN) ∧
    (∀ (o : CBOptions) (s : CBState) (now lf : Int) (fnOk : Bool),
        s.state = CircuitState.OPEN → s.lastFailureTime = some lf →
        o.resetTimeout ≤ now - lf →
        (cbExecute o s now fnOk).1 ≠ CBResult.rejected ∧
        (cbExecute o s now fnOk).2 =
          (cbAttempt o (transitionToHalfOpen
            { s with totalRequests := s.totalRequests + 1 } now) now fnOk).2 ∧
        (transitionToHalfOpen { s with totalRequests := s.totalRequests + 1 } now).state =
          CircuitState.HALF_OPEN) ∧
    (∀ (o : CBOptions) (s : CBState) (now : Int),
        s.state = CircuitState.HALF_OPEN → s.successes = 0 → 1 ≤ o.successThreshold →
        (cbIterate o now true o.successThreshold s).state = CircuitState.CLOSED) ∧
    (∀ (o : CBOptions) (s : CBState) (now : Int),
        s.state = CircuitState.HALF_OPEN →
        (cbExecute o s now false).2.state = CircuitState.OPEN) := by
  refine ⟨?_, ?_, ?_, ?_⟩
  · intro o s t hst hts hper hth
    exact closed_failure_progress o t hper o.failureThreshold 0 s hst (by simpa using hts)
      (by omega) (by omega)
  · intro o s now lf fnOk hst hlf hrt
    have hres : shouldAttemptReset o { s with totalRequests := s.totalRequests + 1 } now = true := by
      unfold shouldAttemptReset
      rw [show ({ s with totalRequests := s.totalRequests + 1 } : CBState).lastFailureTime
            = some lf from hlf]
      simpa using hrt
    have hexec : cbExecute o s now fnOk =
        cbAttempt o (transitionToHalfOpen
          { s with totalRequests := s.totalRequests + 1 } now) now fnOk := by
      unfold cbExecute
      dsimp only
      rw [if_pos hst, if_pos hres]
    refine ⟨?_, ?_, rfl⟩
    · rw [hexec]
      unfold cbAttempt
      split <;> simp
    · rw [hexec]
  · intro o s now hst hsucc hth
    exact halfopen_success_progress o now o.successThreshold s hst (by omega) (by omega)
  · intro o s now hst
    simp [cbExecute, cbAttempt, onFailure, transitionToOpen, hst]

theorem circuit_breaker_transitions_witness :
    (cbIterate cbWitnessOptions 5 false 2 (initialCBState 7)).state = CircuitState.OPEN ∧
    (cbExecute cbWitnessOptions cbOpenState 50 true).1 ≠ CBResult.rejected ∧
    (cbIterate cbWitnessOptions 60 true 2 cbHalfOpenState).state = CircuitState.CLOSED ∧
    (cbExecute cbWitnessOptions cbHalfOpenState 60 false).2.state = CircuitState.OPEN := by
  refine ⟨?_, ?_, ?_, ?_⟩
  · exact circuit_breaker_transitions.1 cbWitnessOptions (initialCBState 7) 5 rfl rfl
      (by decide) (by decide)
  · exact (circuit_breaker_transitions.2.1 cbWitnessOptions cbOpenState 50 0 true
      (by decide) (by decide) (by decide)).1
  · exact circuit_breaker_transitions.2.2.1 cbWitnessOptions cbHalfOpenState 60 rfl rfl
      (by decide)
  · exact circuit_breaker_transitions.2.2.2 cbWitnessOptions cbHalfOpenState 60 rfl

/-- C8 (amended): every state transition of the circuit breaker leaves the
cumulative counters totalRequests, totalFailures and totalSuccesses
unchanged — and so does reset(): it restores the CLOSED state and clears
the window counters, timestamps and lastFailureTime, but writes none of
the cumulative counters, so no operation ever resets them. -/
theorem cumulative_counters_frame :
    ∀ (s : CBState) (now : Int),
      ((transitionToOpen s now).totalRequests = s.totalRequests ∧
       (transitionToOpen s now).totalFailures = s.totalFailures ∧
       (transitionToOpen s now).totalSuccesses = s.totalSuccesses) ∧
      ((transitionToHalfOpen s now).totalRequests = s.totalRequests ∧
       (transitionToHalfOpen s now).totalFailures = s.totalFailures ∧
       (transitionToHalfOpen s now).totalSuccesses = s.totalSuccesses) ∧
      ((transitionToClosed s now).totalRequests = s.totalRequests ∧
       (transitionToClosed s now).totalFailures = s.totalFailures ∧
       (transitionToClosed s now).totalSuccesses = s.totalSuccesses) ∧
      ((cbReset s now).totalRequests = s.totalRequests ∧
       (cbReset s now).totalFailures = s.totalFailures ∧
       (cbReset s now).totalSuccesses = s.totalSuccesses) := by
  intro s now
  exact ⟨⟨rfl, rfl, rfl⟩, ⟨rfl, rfl, rfl⟩, ⟨rfl, rfl, rfl⟩, ⟨rfl, rfl, rfl⟩⟩

/-- C8 counterexample: the claim says an explicit reset() call resets the
cumulative counters; on a state with five recorded requests, reset() keeps
totalRequests at five instead of clearing it. -/
theorem reset_counters_counterexample :
    (cbReset (cbIterate uspsOptions 0 false 5 (initialCBState 0)) 100).totalRequests = 5 ∧
    ¬ (cbReset (cbIterate uspsOptions 0 false 5 (initialCBState 0)) 100).totalRequests = 0 := by
  constructor
  · decide
  · decide

/-- C10: every execute call, including one rejected immediately with the
CircuitBreakerOpenError while the breaker is OPEN, increments totalRequests
by exactly one; a rejected call increments neither totalSuccesses nor
totalFailures, so totalRequests can strictly exceed their sum — as the
concrete run below shows (one failure opens a threshold-1 breaker, the next
call is rejected, leaving totalRequests = 2 against sum 1). -/
theorem totalRequests_increment :
    (∀ (o : CBOptions) (s : CBState) (now : Int) (fnOk : Bool),
        (cbExecute o s now fnOk).2.totalRequests = s.totalRequests + 1) ∧
    ((cbExecute ⟨1, 100, 1000, 2⟩
        ((cbExecute ⟨1, 100, 1000, 2⟩ (initialCBState 0) 0 false).2) 1 true).1 =
      CBResult.rejected ∧
     (cbExecute ⟨1, 100, 1000, 2⟩
        ((cbExecute ⟨1, 100, 1000, 2⟩ (initialCBState 0) 0 false).2) 1 true).2.totalRequests = 2 ∧
     (cbExecute ⟨1, 100, 1000, 2⟩
        ((cbExecute ⟨1, 100, 1000, 2⟩ (initialCBState 0) 0 false).2) 1 true).2.totalSuccesses +
     (cbExecute ⟨1, 100, 1000, 2⟩
        ((cbExecute ⟨1, 100, 1000, 2⟩ (initialCBState 0) 0 false).2) 1 true).2.totalFailures = 1 ∧
     (1 : Nat) < 2) := by
  refine ⟨cbExecute_totalRequests, ?_, ?_, ?_, ?_⟩ <;> decide

/-- C7: LRU cache behaviour of set and get.  (1) Setting a fresh key while
under capacity inserts it at the most-recently-used head and evicts
nothing; at capacity it inserts at the head and drops exactly the list's
tail entry.  (2) Getting a present, non-expired key returns its value and
moves that entry to the head, leaving the others in order.  (3) In the
concrete run of the claim (capacity 3: set k1, k2, k3, get k1, set k4) the
surviving keys are k4, k1, k3 in recency order, and k2 was evicted. -/
theorem lru_cache_eviction :
    (∀ (α β : Type) (inst : DecidableEq α) (c : LRUCache α β) (now : Int) (k : α) (v : β),
        c.entries.find? (fun e => e.key = k) = none →
        ((c.entries.length < c.capacity →
           (c.set now k v).entries = ⟨k, v, now⟩ :: c.entries) ∧
         (c.entries.length = c.capacity →
           (c.set now k v).entries = (⟨k, v, now⟩ :: c.entries).dropLast))) ∧
    (∀ (α β : Type) (inst : DecidableEq α) (c : LRUCache α β) (now : Int) (k : α)
        (e : CacheEntry α β),
        c.entries.find? (fun e2 => e2.key = k) = some e →
        c.isExpired now e = false →
        (c.get now k).1 = some e.value ∧
        (c.get now k).2.entries = e :: c.entries.eraseP (fun e2 => decide (e2.key = k))) ∧
    (lruScenario.keys = [4, 1, 3] ∧ ¬ (2 ∈ lruScenario.keys)) := by
  refine ⟨?_, ?_, by decide, by decide⟩
  · intro α β inst c now k v hfind
    unfold LRUCache.set
    rw [hfind]
    dsimp only
    constructor
    · intro hlt
      rw [if_neg (by simp; omega)]
    · intro heq
      rw [if_pos (by simp; omega)]
  · intro α β inst c now k e hfind hexp
    unfold LRUCache.get
    rw [hfind]
    dsimp only
    rw [if_neg (by simp [hexp])]
    exact ⟨rfl, rfl⟩

theorem lru_cache_eviction_witness :
    (lruWitnessCache.set 50 7 70).entries =
      ((⟨7, 70, 50⟩ : CacheEntry Nat Nat) :: lruWitnessCache.entries).dropLast ∧
    (lruWitnessCache.get 50 1).1 = some 10 := by
  constructor
  · exact (lru_cache_eviction.1 Nat Nat inferInstance lruWitnessCache 50 7 70
      (by decide)).2 (by decide)
  · exact (lru_cache_eviction.2.1 Nat Nat inferInstance lruWitnessCache 50 1 ⟨1, 10, 0⟩
      (by decide) (by decide)).1

/-- C5: with a usable (non-sentinel) working geometry, no formatted address,
and a reverse lookup that finds nothing, ensureValidGeoCoordinates still
reports status true: the location carries only the input geometry and the
error is the non-empty reverse-geocoding diagnostic. -/
theorem reverse_geocode_soft_failure :
    ∀ (O : Oracles) (lat lng : Option Int) (geo : Option Geo) (fa : Option String) (g : Geo),
      currentGeoOf lat lng geo = some g →
      ¬(g.x = 0 ∧ g.y = 0) →
      truthy fa = false →
      O.reverse g = none →
      ensureValidGeoCoordinates O lat lng geo fa =
        ⟨true, ⟨g, none, none, none, none, none, none, none⟩,
         some "Reverse geocoding failed: no address returned."⟩ ∧
      "Reverse geocoding failed: no address returned." ≠ "" := by
  intro O lat lng geo fa g hcur hz hfa hrev
  constructor
  · unfold ensureValidGeoCoordinates
    rw [hcur]
    dsimp only
    rw [if_neg hz, if_neg (by simp [hfa]), hrev]
  · intro h
    exact String.noConfusion h (fun hdata => List.noConfusion hdata)

theorem reverse_geocode_soft_failure_witness :
    ensureValidGeoCoordinates failingOracles none none (some ⟨3, 4⟩) none =
      ⟨true, ⟨⟨3, 4⟩, none, none, none, none, none, none, none⟩,
       some "Reverse geocoding failed: no address returned."⟩ :=
  (reverse_geocode_soft_failure failingOracles none none (some ⟨3, 4⟩) none ⟨3, 4⟩
    rfl (by decide) rfl rfl).1

theorem fallbackForward_sentinel (O : Oracles) (fa : Option String) :
    (fallbackForward O fa).location.geo = sentinelGeo →
    (fallbackForward O fa).status = false := by
  unfold fallbackForward
  by_cases ht : truthy fa
  · rw [if_pos ht]
    rcases hf : fetchGeoCoordinates O (fa.getD "") with _ | fd
    · dsimp only
      intro _; rfl
    · dsimp only
      by_cases hz : fd.geo.x = 0 ∧ fd.geo.y = 0
      · rw [if_pos hz]
        intro _; rfl
      · rw [if_neg hz]
        intro h
        exact (hz (by simp [show fd.geo = sentinelGeo from h, sentinelGeo])).elim
  · rw [if_neg ht]
    intro _; rfl

theorem geo_sentinel_status_false (O : Oracles) (lat lng : Option Int) (geo : Option Geo)
    (fa : Option String) :
    (ensureValidGeoCoordinates O lat lng geo fa).location.geo = sentinelGeo →
    (ensureValidGeoCoordinates O lat lng geo fa).status = false := by
  unfold ensureValidGeoCoordinates
  rcases hc : currentGeoOf lat lng geo with _ | g
  · dsimp only
    exact fallbackForward_sentinel O fa
  · dsimp only
    by_cases hz : g.x = 0 ∧ g.y = 0
    · rw [if_pos hz]
      exact fallbackForward_sentinel O fa
    · rw [if_neg hz]
      by_cases ht : truthy fa
      · rw [if_pos ht]
        intro h
        exact (hz (by simp [show g = sentinelGeo from h, sentinelGeo])).elim
      · rw [if_neg (by simp [ht])]
        rcases O.reverse g with _ | rev
        · intro h
          exact (hz (by simp [show g = sentinelGeo from h, sentinelGeo])).elim
        · intro h
          exact (hz (by simp [show g = sentinelGeo from h, sentinelGeo])).elim

theorem geoResultOf_sentinel (O : Oracles) (usps : AddressCorrectionResponse)
    (loc : LocationInput) :
    (geoResultOf O usps loc).location.geo = sentinelGeo →
    (geoResultOf O usps loc).status = false := by
  unfold geoResultOf
  exact geo_sentinel_status_false O none none _ _

/-- C2: the status of correctLocation is the (always boolean) value
geocode-status AND (postal-status OR merged-record-completeness OR
(original hasCoordinates AND NOT original hasCityOrZip)), where
completeness is read off the returned record; and whenever the geocoding
stage produced only the sentinel geometry, the final status is false
regardless of the postal outcome. -/
theorem final_status_formula :
    ∀ (O : Oracles) (usps : AddressCorrectionResponse) (loc : LocationInput),
      ((correctLocation O usps loc).status =
        ((geoResultOf O usps loc).status &&
         (usps.status ||
          (truthy (correctLocation O usps loc).streetAddress &&
           (truthy (correctLocation O usps loc).city ||
            truthy (correctLocation O usps loc).zipCode) &&
           truthy (correctLocation O usps loc).state) ||
          (hasCoordinatesOf loc && !(hasCityOrZipOf loc))))) ∧
      ((geoResultOf O usps loc).location.geo = sentinelGeo →
        (correctLocation O usps loc).status = false) := by
  intro O usps loc
  constructor
  · by_cases hs : skipUSPS loc
    · have hterm : (hasCoordinatesOf loc && !(hasCityOrZipOf loc)) = true := hs
      unfold correctLocation uspsUsed
      dsimp only
      rw [hterm, if_pos hs]
      simp
    · have : uspsUsed usps loc = usps := by unfold uspsUsed; rw [if_neg hs]
      unfold correctLocation
      dsimp only
      rw [this]
      rfl
  · intro hsent
    have hgeo := geoResultOf_sentinel O usps loc hsent
    unfold correctLocation
    dsimp only
    rw [hgeo]
    simp

theorem final_status_formula_witness :
    (correctLocation failingOracles ⟨⟨none, none, none, none, none, none⟩, true, none⟩
      ⟨none, none, none, none, none, none, none, none, none⟩).status = false :=
  (final_status_formula failingOracles ⟨⟨none, none, none, none, none, none⟩, true, none⟩
    ⟨none, none, none, none, none, none, none, none, none⟩).2 rfl

/-- C4: the error field of correctLocation is the postal-stage error when
that is truthy, else the geocode-stage error when that is truthy, else
absent — a geocode error never overwrites a postal one. -/
theorem error_first_wins :
    ∀ (O : Oracles) (usps : AddressCorrectionResponse) (loc : LocationInput),
      (correctLocation O usps loc).error =
        (if truthy (uspsUsed usps loc).error then (uspsUsed usps loc).error
         else if truthy (geoResultOf O usps loc).error then (geoResultOf O usps loc).error
         else none) := by
  intro O usps loc
  unfold correctLocation
  dsimp only
  unfold orTruthy
  by_cases h1 : truthy (uspsUsed usps loc).error
  · simp [h1]
  · simp [h1]

theorem mg6_frame (O : Oracles) (g : GeoValidationResult) (l : LocationInput) :
    (mg6 O g l).city = l.city ∧ (mg6 O g l).state = l.state ∧
    (mg6 O g l).zipCode = l.zipCode ∧ (mg6 O g l).streetAddress = l.streetAddress ∧
    (mg6 O g l).formattedAddress = l.formattedAddress ∧ (mg6 O g l).geo = l.geo := by
  unfold mg6
  repeat' first | exact ⟨rfl, rfl, rfl, rfl, rfl, rfl⟩ | split

theorem mg1_fields (l : LocationInput) (g : GeoValidationResult) :
    (mg1 l g).city = l.city ∧ (mg1 l g).state = l.state ∧ (mg1 l g).zipCode = l.zipCode ∧
    (mg1 l g).streetAddress = l.streetAddress ∧
    (mg1 l g).formattedAddress = orTruthy g.location.formattedAddress l.formattedAddress :=
  ⟨rfl, rfl, rfl, rfl, rfl⟩

theorem mg2_city (g : GeoValidationResult) (l : LocationInput) :
    (mg2 g l).city =
      (if !(truthy l.city) && truthy g.location.city then g.location.city else l.city) := by
  unfold mg2
  split <;> rfl

theorem mg2_frame (g : GeoValidationResult) (l : LocationInput) :
    (mg2 g l).state = l.state ∧ (mg2 g l).zipCode = l.zipCode ∧
    (mg2 g l).streetAddress = l.streetAddress ∧
    (mg2 g l).formattedAddress = l.formattedAddress := by
  unfold mg2
  split <;> exact ⟨rfl, rfl, rfl, rfl⟩

theorem mg3_state (g : GeoValidationResult) (l : LocationInput) :
    (mg3 g l).state =
      (if !(truthy l.state) && truthy g.location.state then g.location.state else l.state) := by
  unfold mg3
  split <;> rfl

theorem mg3_frame (g : GeoValidationResult) (l : LocationInput) :
    (mg3 g l).city = l.city ∧ (mg3 g l).zipCode = l.zipCode ∧
    (mg3 g l).streetAddress = l.streetAddress ∧
    (mg3 g l).formattedAddress = l.formattedAddress := by
  unfold mg3
  split <;> exact ⟨rfl, rfl, rfl, rfl⟩

theorem mg4_zipCode (g : GeoValidationResult) (l : LocationInput) :
    (mg4 g l).zipCode =
      (if !(truthy l.zipCode) && truthy g.location.zipCode then g.location.zipCode
       else l.zipCode) := by
  unfold mg4
  split <;> rfl

theorem mg4_frame (g : GeoValidationResult) (l : LocationInput) :
    (mg4 g l).city = l.city ∧ (mg4 g l).state = l.state ∧
    (mg4 g l).streetAddress = l.streetAddress ∧
    (mg4 g l).formattedAddress = l.formattedAddress := by
  unfold mg4
  split <;> exact ⟨rfl, rfl, rfl, rfl⟩

theorem mg5_streetAddress (g : GeoValidationResult) (l : LocationInput) :
    (mg5 g l).streetAddress =
      (if truthy g.location.streetAddress then g.location.streetAddress
       else l.streetAddress) := by
  unfold mg5
  split <;> rfl

theorem mg5_frame (g : GeoValidationResult) (l : LocationInput) :
    (mg5 g l).city = l.city ∧ (mg5 g l).state = l.state ∧ (mg5 g l).zipCode = l.zipCode ∧
    (mg5 g l).formattedAddress = l.formattedAddress := by
  unfold mg5
  split <;> exact ⟨rfl, rfl, rfl, rfl⟩

theorem mergeGeoFields_city (O : Oracles) (l : LocationInput) (g : GeoValidationResult) :
    (mergeGeoFields O l g).city =
      (if !(truthy l.city) && truthy g.location.city then g.location.city else l.city) := by
  unfold mergeGeoFields mg7
  dsimp only
  rw [(mg6_frame O g _).1, (mg5_frame g _).1, (mg4_frame g _).1, (mg3_frame g _).1,
    mg2_city, (mg1_fields l g).1]

theorem mergeGeoFields_state (O : Oracles) (l : LocationInput) (g : GeoValidationResult) :
    (mergeGeoFields O l g).state =
      (if !(truthy l.state) && truthy g.location.state then g.location.state else l.state) := by
  unfold mergeGeoFields mg7
  dsimp only
  rw [(mg6_frame O g _).2.1, (mg5_frame g _).2.1, (mg4_frame g _).2.1, mg3_state,
    (mg2_frame g _).1, (mg1_fields l g).2.1]

theorem mergeGeoFields_zipCode (O : Oracles) (l : LocationInput) (g : GeoValidationResult) :
    (mergeGeoFields O l g).zipCode =
      (if !(truthy l.zipCode) && truthy g.location.zipCode then g.location.zipCode
       else l.zipCode) := by
  unfold mergeGeoFields mg7
  dsimp only
  rw [(mg6_frame O g _).2.2.1, (mg5_frame g _).2.2.1, mg4_zipCode, (mg3_frame g _).2.1,
    (mg2_frame g _).2.1, (mg1_fields l g).2.2.1]

theorem mergeGeoFields_streetAddress (O : Oracles) (l : LocationInput)
    (g : GeoValidationResult) :
    (mergeGeoFields O l g).streetAddress =
      (if truthy g.location.streetAddress then g.location.streetAddress
       else l.streetAddress) := by
  unfold mergeGeoFields mg7
  dsimp only
  rw [(mg6_frame O g _).2.2.2.1, mg5_streetAddress, (mg4_frame g _).2.2.1,
    (mg3_frame g _).2.2.1, (mg2_frame g _).2.2.1, (mg1_fields l g).2.2.2.1]

theorem mergeGeoFields_formattedAddress (O : Oracles) (l : LocationInput)
    (g : GeoValidationResult) :
    (mergeGeoFields O l g).formattedAddress =
      orTruthy g.location.formattedAddress l.formattedAddress := by
  unfold mergeGeoFields mg7
  dsimp only
  rw [(mg6_frame O g _).2.2.2.2.1, (mg5_frame g _).2.2.2, (mg4_frame g _).2.2.2,
    (mg3_frame g _).2.2.2, (mg2_frame g _).2.2.2, (mg1_fields l g).2.2.2.2]

theorem correctLocation_city (O : Oracles) (usps : AddressCorrectionResponse)
    (loc : LocationInput) :
    (correctLocation O usps loc).city =
      (mergeGeoFields O (preGeoLoc O usps loc) (geoResultOf O usps loc)).city := rfl

theorem correctLocation_state (O : Oracles) (usps : AddressCorrectionResponse)
    (loc : LocationInput) :
    (correctLocation O usps loc).state =
      (mergeGeoFields O (preGeoLoc O usps loc) (geoResultOf O usps loc)).state := rfl

theorem correctLocation_zipCode (O : Oracles) (usps : AddressCorrectionResponse)
    (loc : LocationInput) :
    (correctLocation O usps loc).zipCode =
      (mergeGeoFields O (preGeoLoc O usps loc) (geoResultOf O usps loc)).zipCode := rfl

theorem correctLocation_streetAddress (O : Oracles) (usps : AddressCorrectionResponse)
    (loc : LocationInput) :
    (correctLocation O usps loc).streetAddress =
      (mergeGeoFields O (preGeoLoc O usps loc) (geoResultOf O usps loc)).streetAddress := rfl

theorem correctLocation_formattedAddress (O : Oracles) (usps : AddressCorrectionResponse)
    (loc : LocationInput) :
    (correctLocation O usps loc).formattedAddress =
      (mergeGeoFields O (preGeoLoc O usps loc) (geoResultOf O usps loc)).formattedAddress := rfl

theorem correctLocation_geo (O : Oracles) (usps : AddressCorrectionResponse)
    (loc : LocationInput) :
    (correctLocation O usps loc).geo = (geoResultOf O usps loc).location.geo := rfl

theorem preGeoLoc_postalFields (O : Oracles) (usps : AddressCorrectionResponse)
    (loc : LocationInput) :
    (preGeoLoc O usps loc).city =
      overrideOpt (enrichedLoc O loc).city (uspsUsed usps loc).location.city ∧
    (preGeoLoc O usps loc).state =
      overrideOpt (enrichedLoc O loc).state (uspsUsed usps loc).location.state ∧
    (preGeoLoc O usps loc).zipCode =
      overrideOpt (enrichedLoc O loc).zipCode (uspsUsed usps loc).location.zipCode ∧
    (preGeoLoc O usps loc).streetAddress =
      overrideOpt (enrichedLoc O loc).streetAddress (uspsUsed usps loc).location.streetAddress := by
  unfold preGeoLoc mergeUSPS
  dsimp only
  split <;> split <;> exact ⟨rfl, rfl, rfl, rfl⟩

/-- C1 (amended): in the final merge of correctLocation, city, state and
zipCode keep the postal precedence the claim states — a truthy value of the
postal-merged working record survives, and the geocode value only fills a
still-falsy field — and geo is always the geocode geometry.  For
streetAddress, however, the code has no still-absent guard: a truthy
geocode streetAddress overwrites the postal value, and the postal value
survives only when the geocode result has none.  formattedAddress is
overwritten exactly when the geocode result carries a truthy one, and kept
otherwise. -/
theorem merge_precedence_amended :
    ∀ (O : Oracles) (usps : AddressCorrectionResponse) (loc : LocationInput),
      ((truthy (preGeoLoc O usps loc).city = true →
          (correctLocation O usps loc).city = (preGeoLoc O usps loc).city) ∧
       (truthy (preGeoLoc O usps loc).city = false →
          truthy (geoResultOf O usps loc).location.city = true →
          (correctLocation O usps loc).city = (geoResultOf O usps loc).location.city) ∧
       (skipUSPS loc = false → ∀ v : String, usps.location.city = some v → ¬ v = "" →
          (correctLocation O usps loc).city = some v)) ∧
      ((truthy (preGeoLoc O usps loc).state = true →
          (correctLocation O usps loc).state = (preGeoLoc O usps loc).state) ∧
       (truthy (preGeoLoc O usps loc).state = false →
          truthy (geoResultOf O usps loc).location.state = true →
          (correctLocation O usps loc).state = (geoResultOf O usps loc).location.state) ∧
       (skipUSPS loc = false → ∀ v : String, usps.location.state = some v → ¬ v = "" →
          (correctLocation O usps loc).state = some v)) ∧
      ((truthy (preGeoLoc O usps loc).zipCode = true →
          (correctLocation O usps loc).zipCode = (preGeoLoc O usps loc).zipCode) ∧
       (truthy (preGeoLoc O usps loc).zipCode = false →
          truthy (geoResultOf O usps loc).location.zipCode = true →
          (correctLocation O usps loc).zipCode = (geoResultOf O usps loc).location.zipCode) ∧
       (skipUSPS loc = false → ∀ v : String, usps.location.zipCode = some v → ¬ v = "" →
          (correctLocation O usps loc).zipCode = some v)) ∧
      ((correctLocation O usps loc).geo = (geoResultOf O usps loc).location.geo) ∧
      ((truthy (geoResultOf O usps loc).location.streetAddress = true →
          (correctLocation O usps loc).streetAddress =
            (geoResultOf O usps loc).location.streetAddress) ∧
       (truthy (geoResultOf O usps loc).location.streetAddress = false →
          (correctLocation O usps loc).streetAddress = (preGeoLoc O usps loc).streetAddress)) ∧
      ((truthy (geoResultOf O usps loc).location.formattedAddress = true →
          (correctLocation O usps loc).formattedAddress =
            (geoResultOf O usps loc).location.formattedAddress) ∧
       (truthy (geoResultOf O usps loc).location.formattedAddress = false →
          (correctLocation O usps loc).formattedAddress =
            (preGeoLoc O usps loc).formattedAddress)) := by
  intro O usps loc
  have husps : skipUSPS loc = false → uspsUsed usps loc = usps := by
    intro hskip
    unfold uspsUsed
    rw [if_neg (by simp [hskip])]
  refine ⟨⟨?_, ?_, ?_⟩, ⟨?_, ?_, ?_⟩, ⟨?_, ?_, ?_⟩, rfl, ⟨?_, ?_⟩, ⟨?_, ?_⟩⟩
  · intro h
    rw [correctLocation_city, mergeGeoFields_city, h]
    simp
  · intro h hg
    rw [correctLocation_city, mergeGeoFields_city, h, hg]
    simp
  · intro hskip v hv hne
    have hl : (preGeoLoc O usps loc).city = some v := by
      rw [(preGeoLoc_postalFields O usps loc).1, husps hskip, hv]
      rfl
    have ht : truthy (preGeoLoc O usps loc).city = true := by
      rw [hl]
      simp [truthy, hne]
    rw [correctLocation_city, mergeGeoFields_city, ht]
    simpa using hl
  · intro h
    rw [correctLocation_state, mergeGeoFields_state, h]
    simp
  · intro h hg
    rw [correctLocation_state, mergeGeoFields_state, h, hg]
    simp
  · intro hskip v hv hne
    have hl : (preGeoLoc O usps loc).state = some v := by
      rw [(preGeoLoc_postalFields O usps loc).2.1, husps hskip, hv]
      rfl
    have ht : truthy (preGeoLoc O usps loc).state = true := by
      rw [hl]
      simp [truthy, hne]
    rw [correctLocation_state, mergeGeoFields_state, ht]
    simpa using hl
  · intro h
    rw [correctLocation_zipCode, mergeGeoFields_zipCode, h]
    simp
  · intro h hg
    rw [correctLocation_zipCode, mergeGeoFields_zipCode, h, hg]
    simp
  · intro hskip v hv hne
    have hl : (preGeoLoc O usps loc).zipCode = some v := by
      rw [(preGeoLoc_postalFields O usps loc).2.2.1, husps hskip, hv]
      rfl
    have ht : truthy (preGeoLoc O usps loc).zipCode = true := by
      rw [hl]
      simp [truthy, hne]
    rw [correctLocation_zipCode, mergeGeoFields_zipCode, ht]
    simpa using hl
  · intro h
    rw [correctLocation_streetAddress, mergeGeoFields_streetAddress, h]
    simp
  · intro h
    rw [correctLocation_streetAddress, mergeGeoFields_streetAddress, h]
    simp
  · intro h
    rw [correctLocation_formattedAddress, mergeGeoFields_formattedAddress]
    unfold orTruthy
    rw [if_pos h]
  · intro h
    rw [correctLocation_formattedAddress, mergeGeoFields_formattedAddress]
    unfold orTruthy
    rw [if_neg (by simp [h])]

/-- C1 counterexample: the claim says streetAddress follows postal-wins
precedence and formattedAddress is always overwritten by the geocode
result.  In the first run both the postal stage (streetAddress "A") and the
geocode stage (streetAddress "B") set the field and the final record holds
the geocode value "B", not the postal value.  In the second run the geocode
result carries no formattedAddress, yet the final record keeps the
synthesized one instead of being overwritten. -/
theorem streetAddress_overwrite_counterexample :
    c1Usps.location.streetAddress = some "A" ∧
    skipUSPS emptyLoc = false ∧
    (geoResultOf c1Oracles c1Usps emptyLoc).location.streetAddress = some "B" ∧
    (correctLocation c1Oracles c1Usps emptyLoc).streetAddress = some "B" ∧
    ¬ (correctLocation c1Oracles c1Usps emptyLoc).streetAddress = some "A" ∧
    (correctLocation failingOracles emptyUsps coordsLoc).formattedAddress = some "" ∧
    (geoResultOf failingOracles emptyUsps coordsLoc).location.formattedAddress = none ∧
    ¬ (correctLocation failingOracles emptyUsps coordsLoc).formattedAddress =
        (geoResultOf failingOracles emptyUsps coordsLoc).location.formattedAddress := by
  refine ⟨rfl, rfl, rfl, rfl, by decide, rfl, rfl, by decide⟩

theorem merge_precedence_amended_witness :
    (correctLocation c1Oracles c1Usps emptyLoc).city = some "Springfield" ∧
    (correctLocation c1Oracles c1Usps emptyLoc).streetAddress = some "B" := by
  constructor
  · have h := ((merge_precedence_amended c1Oracles c1Usps emptyLoc).1).1 (by decide)
    rw [h]
    rfl
  · have h := ((merge_precedence_amended c1Oracles c1Usps emptyLoc).2.2.2.2.1).1 (by decide)
    rw [h]
    rfl

theorem shouldAttemptReset_totalRequests (o : CBOptions) (s : CBState) (now : Int) (x : Nat) :
    shouldAttemptReset o { s with totalRequests := x } now = shouldAttemptReset o s now := rfl

/-- C3 (amended): ensureValidGeoCoordinates is total (it catches every
internal error), and correctAddress returns the tagged
status=false/'Could not retrieve USPS access token.' result when the token
endpoint resolves without a token (getUSPSToken then resolves to absent).
But when token acquisition is a thrown error — a network/5xx rejection, or
the CircuitBreakerOpenError raised while the postal breaker is OPEN — the
rejection propagates out of correctAddress uncaught (the await of
getUSPSToken sits outside every try/catch), and correctLocation propagates
it in turn. -/
theorem correctAddress_error_propagation :
    (∀ (ts : TokenState) (cb : CBState) (now : Int),
        tokenFresh ts now = false → cb.state = CircuitState.CLOSED →
        (getUSPSToken ts cb now TokenOutcome.badResponse).1 = Except.ok none) ∧
    (∀ (ts : TokenState) (cb : CBState) (now : Int)
        (mo ro : USPSCallOutcome) (input : AddressInput),
        tokenFresh ts now = false → cb.state = CircuitState.CLOSED →
        (truthy (preprocessAddress ⟨cleanField input.streetAddress, cleanField input.city,
            cleanField input.state, cleanField input.zipCode⟩).streetAddress = true) →
        (truthy (preprocessAddress ⟨cleanField input.streetAddress, cleanField input.city,
            cleanField input.state, cleanField input.zipCode⟩).city = true ∨
         truthy (preprocessAddress ⟨cleanField input.streetAddress, cleanField input.city,
            cleanField input.state, cleanField input.zipCode⟩).zipCode = true) →
        (correctAddress ts cb now TokenOutcome.badResponse mo ro input).1.map
            (fun r => (r.status, r.error)) =
          Except.ok (false, some "Could not retrieve USPS access token.")) ∧
    (∀ (ts : TokenState) (cb : CBState) (now : Int) (msg : String)
        (mo ro : USPSCallOutcome) (input : AddressInput),
        tokenFresh ts now = false → cb.state = CircuitState.CLOSED →
        (truthy (preprocessAddress ⟨cleanField input.streetAddress, cleanField input.city,
            cleanField input.state, cleanField input.zipCode⟩).streetAddress = true) →
        (truthy (preprocessAddress ⟨cleanField input.streetAddress, cleanField input.city,
            cleanField input.state, cleanField input.zipCode⟩).city = true ∨
         truthy (preprocessAddress ⟨cleanField input.streetAddress, cleanField input.city,
            cleanField input.state, cleanField input.zipCode⟩).zipCode = true) →
        (correctAddress ts cb now (TokenOutcome.thrown msg) mo ro input).1 =
          Except.error msg) ∧
    (∀ (ts : TokenState) (cb : CBState) (now : Int) (tok : TokenOutcome)
        (mo ro : USPSCallOutcome) (input : AddressInput),
        tokenFresh ts now = false → cb.state = CircuitState.OPEN →
        shouldAttemptReset uspsOptions cb now = false →
        (truthy (preprocessAddress ⟨cleanField input.streetAddress, cleanField input.city,
            cleanField input.state, cleanField input.zipCode⟩).streetAddress = true) →
        (truthy (preprocessAddress ⟨cleanField input.streetAddress, cleanField input.city,
            cleanField input.state, cleanField input.zipCode⟩).city = true ∨
         truthy (preprocessAddress ⟨cleanField input.streetAddress, cleanField input.city,
            cleanField input.state, cleanField input.zipCode⟩).zipCode = true) →
        (correctAddress ts cb now tok mo ro input).1 =
          Except.error "Circuit breaker is OPEN for USPS API") ∧
    (∀ (O : Oracles) (ts : TokenState) (cb : CBState) (now : Int) (tok : TokenOutcome)
        (mo ro : USPSCallOutcome) (loc : LocationInput) (e : String),
        skipUSPS loc = false →
        (correctAddress ts cb now tok mo ro (uspsInputOf (enrichedLoc O loc))).1 =
          Except.error e →
        (correctLocationE O ts cb now tok mo ro loc).1 = Except.error e) := by
  refine ⟨?_, ?_, ?_, ?_, ?_⟩
  · intro ts cb now hfresh hcb
    unfold getUSPSToken attemptToken
    rw [if_neg (by simp [hfresh])]
    dsimp only
    rw [if_neg (by simp [hcb])]
  · intro ts cb now mo ro input hfresh hcb hsa hcz
    unfold correctAddress
    dsimp only
    rw [if_neg (by rcases hcz with h | h <;> simp [hsa, h])]
    have htok : getUSPSToken ts cb now TokenOutcome.badResponse =
        (Except.ok none, ⟨none, none⟩,
         onSuccess uspsOptions { cb with totalRequests := cb.totalRequests + 1 } now) := by
      unfold getUSPSToken attemptToken
      rw [if_neg (by simp [hfresh])]
      dsimp only
      rw [if_neg (by simp [hcb])]
      rw [if_neg (by simp [hcb])]
    rw [htok]
    rfl
  · intro ts cb now msg mo ro input hfresh hcb hsa hcz
    unfold correctAddress
    dsimp only
    rw [if_neg (by rcases hcz with h | h <;> simp [hsa, h])]
    have htok : getUSPSToken ts cb now (TokenOutcome.thrown msg) =
        (Except.error msg, ts,
         onFailure uspsOptions { cb with totalRequests := cb.totalRequests + 1 } now) := by
      unfold getUSPSToken attemptToken
      rw [if_neg (by simp [hfresh])]
      dsimp only
      rw [if_neg (by simp [hcb])]
      rw [if_neg (by simp [hcb])]
    rw [htok]
  · intro ts cb now tok mo ro input hfresh hcb hres hsa hcz
    unfold correctAddress
    dsimp only
    rw [if_neg (by rcases hcz with h | h <;> simp [hsa, h])]
    have htok : getUSPSToken ts cb now tok =
        (Except.error "Circuit breaker is OPEN for USPS API", ts,
         { cb with totalRequests := cb.totalRequests + 1 }) := by
      unfold getUSPSToken attemptToken
      rw [if_neg (by simp [hfresh])]
      rw [if_pos ⟨by simpa using hcb, by rw [shouldAttemptReset_totalRequests]; simpa using hres⟩]
    rw [htok]
  · intro O ts cb now tok mo ro loc e hskip hca
    unfold correctLocationE
    rw [if_neg (by simp [hskip])]
    rcases hres : correctAddress ts cb now tok mo ro (uspsInputOf (enrichedLoc O loc))
      with ⟨res, ts1, cb1⟩
    rw [hres] at hca
    have h2 : res = Except.error e := hca
    subst h2
    rfl

/-- C3 counterexample: with the postal circuit breaker OPEN (from five
recorded failures, still inside the reset timeout), correctAddress rejects
with the CircuitBreakerOpenError message instead of returning a tagged
result, correctLocation propagates the same rejection, and an ordinary
thrown token-endpoint error (network/5xx) also escapes correctAddress. -/
theorem correctAddress_throw_counterexample :
    (correctAddress ⟨none, none⟩ cbOpenUSPS 1 (TokenOutcome.ok "tok" 3600)
        USPSCallOutcome.noAddress USPSCallOutcome.noAddress c3Input).1 =
      Except.error "Circuit breaker is OPEN for USPS API" ∧
    (correctLocationE failingOracles ⟨none, none⟩ cbOpenUSPS 1 (TokenOutcome.ok "tok" 3600)
        USPSCallOutcome.noAddress USPSCallOutcome.noAddress c3Loc).1 =
      Except.error "Circuit breaker is OPEN for USPS API" ∧
    (correctAddress ⟨none, none⟩ (initialCBState 0) 1 (TokenOutcome.thrown "connect ECONNREFUSED")
        USPSCallOutcome.noAddress USPSCallOutcome.noAddress c3Input).1 =
      Except.error "connect ECONNREFUSED" := by
  refine ⟨rfl, rfl, rfl⟩

theorem correctAddress_error_propagation_witness :
    (getUSPSToken ⟨none, none⟩ (initialCBState 0) 1 TokenOutcome.badResponse).1 =
      Except.ok none ∧
    (correctAddress ⟨none, none⟩ (initialCBState 0) 1 TokenOutcome.badResponse
        USPSCallOutcome.noAddress USPSCallOutcome.noAddress c3Input).1.map
        (fun r => (r.status, r.error)) =
      Except.ok (false, some "Could not retrieve USPS access token.") ∧
    (correctAddress ⟨none, none⟩ cbOpenUSPS 1 (TokenOutcome.ok "tok" 3600)
        USPSCallOutcome.noAddress USPSCallOutcome.noAddress c3Input).1 =
      Except.error "Circuit breaker is OPEN for USPS API" := by
  refine ⟨?_, ?_, ?_⟩
  · exact correctAddress_error_propagation.1 ⟨none, none⟩ (initialCBState 0) 1 rfl rfl
  · exact correctAddress_error_propagation.2.1 ⟨none, none⟩ (initialCBState 0) 1
      USPSCallOutcome.noAddress USPSCallOutcome.noAddress c3Input rfl rfl (by decide)
      (Or.inl (by decide))
  · exact correctAddress_error_propagation.2.2.2.1 ⟨none, none⟩ cbOpenUSPS 1
      (TokenOutcome.ok "tok" 3600) USPSCallOutcome.noAddress USPSCallOutcome.noAddress c3Input
      rfl (by decide) (by decide) (by decide) (Or.inl (by decide))

theorem ws_not_word (c : Char) (h : isWs c = true) : isWordChar c = false := by
  unfold isWs at h
  simp only [Bool.or_eq_true, beq_iff_eq] at h
  casesm* _ ∨ _
  all_goals subst_vars
  all_goals decide

theorem word_not_ws (c : Char) (h : isWordChar c = true) : isWs c = false := by
  by_contra hne
  have : isWs c = true := by
    cases hw : isWs c
    · exact (hne hw).elim
    · rfl
  rw [ws_not_word c this] at h
  exact Bool.noConfusion h

theorem isWordChar_dot : isWordChar '.' = false := by decide

theorem replTokGo_eq (toks : List (List Char)) :
    ∀ (s run : List Char),
      replTokGo toks run s = renderChunks (mapRule toks (parseGo run s)) := by
  intro s
  induction s with
  | nil =>
    intro run
    by_cases hr : run = []
    · simp [replTokGo, parseGo, flushRun, flushWord, hr, mapRule, renderChunks]
    · by_cases hm : run ∈ toks
      · simp [replTokGo, parseGo, flushRun, flushWord, hr, hm, mapRule, startsWithDot,
          renderChunks]
      · simp [replTokGo, parseGo, flushRun, flushWord, hr, hm, mapRule, renderChunks]
  | cons c cs ih =>
    intro run
    by_cases hw : isWordChar c
    · simp only [replTokGo, parseGo, if_pos hw]
      exact ih (run ++ [c])
    · by_cases hr : run = []
      · simp [replTokGo, parseGo, flushRun, flushWord, hw, hr, mapRule, renderChunks, ih []]
      · by_cases hm : run ∈ toks
        · by_cases hd : c = '.'
          · simp [replTokGo, parseGo, flushRun, flushWord, hw, hr, hm, hd, mapRule,
              startsWithDot, renderChunks, isWordChar_dot, ih []]
          · simp [replTokGo, parseGo, flushRun, flushWord, hw, hr, hm, hd, mapRule,
              startsWithDot, renderChunks, ih []]
        · simp [replTokGo, parseGo, flushRun, flushWord, hw, hr, hm, mapRule, renderChunks,
            ih []]

theorem replTok_eq (toks : List (List Char)) (s : List Char) :
    replTok toks s = renderChunks (mapRule toks (parseChunks s)) :=
  replTokGo_eq toks s []

theorem parseGo_WF : ∀ (s run : List Char), (∀ c ∈ run, isWordChar c = true) →
    ChunkWF (parseGo run s) := by
  intro s
  induction s with
  | nil =>
    intro run hrun
    by_cases hr : run = []
    · simp [parseGo, flushWord, hr, ChunkWF]
    · have : ChunkWF [Chunk.word run] := ⟨hr, hrun, trivial, trivial⟩
      simpa [parseGo, flushWord, hr] using this
  | cons c cs ih =>
    intro run hrun
    by_cases hw : isWordChar c
    · rw [parseGo, if_pos hw]
      exact ih (run ++ [c]) (by
        intro x hx
        rcases List.mem_append.mp hx with h | h
        · exact hrun x h
        · simp at h
          subst h
          exact hw)
    · rw [parseGo, if_neg hw]
      have hx := ih [] (by simp)
      have hcf : isWordChar c = false := by
        cases hic : isWordChar c
        · rfl
        · exact (hw hic).elim
      by_cases hr : run = []
      · have : ChunkWF (Chunk.sep c :: parseGo [] cs) := ⟨hcf, hx⟩
        simpa [flushWord, hr] using this
      · have : ChunkWF (Chunk.word run :: Chunk.sep c :: parseGo [] cs) :=
          ⟨hr, hrun, trivial, hcf, hx⟩
        simpa [flushWord, hr] using this

theorem parseChunks_WF (s : List Char) : ChunkWF (parseChunks s) :=
  parseGo_WF s [] (by simp)

theorem parseGo_append : ∀ (w t run : List Char), (∀ c ∈ w, isWordChar c = true) →
    parseGo run (w ++ t) = parseGo (run ++ w) t := by
  intro w
  induction w with
  | nil => intro t run _; simp
  | cons c cs ih =>
    intro t run hw
    have hc : isWordChar c = true := hw c (by simp)
    rw [List.cons_append, parseGo, if_pos hc, ih t (run ++ [c]) (fun x hx => hw x (by simp [hx]))]
    simp

theorem renderChunks_ne_nil (l : List Chunk) (hwf : ChunkWF l) (hne : l ≠ []) :
    renderChunks l ≠ [] := by
  cases l with
  | nil => exact (hne rfl).elim
  | cons ch rest =>
    cases ch with
    | word w =>
      rcases hwf with ⟨hw, _, _, _⟩
      cases w with
      | nil => exact (hw rfl).elim
      | cons c cs => simp [renderChunks]
    | sep c => simp [renderChunks]

theorem parseGo_render_aux : ∀ (n : Nat) (l : List Chunk) (run : List Char),
    l.length ≤ n → ChunkWF l → notWordHead l →
    parseGo run (renderChunks l) = flushWord run ++ l := by
  intro n
  induction n with
  | zero =>
    intro l run hlen _ _
    have : l = [] := List.eq_nil_of_length_eq_zero (Nat.le_zero.mp hlen)
    subst this
    simp [renderChunks, parseGo]
  | succ n ih =>
    intro l run hlen hwf hnw
    cases l with
    | nil => simp [renderChunks, parseGo]
    | cons ch rest =>
      cases ch with
      | word w => exact hnw.elim
      | sep c =>
        rcases hwf with ⟨hc, hwrest⟩
        rw [renderChunks, parseGo, if_neg (by simp [hc])]
        congr 1
        congr 1
        cases rest with
        | nil => simp [renderChunks, parseGo, flushWord]
        | cons ch2 rest2 =>
          cases ch2 with
          | sep c2 =>
            have := ih (Chunk.sep c2 :: rest2) [] (by simpa using Nat.le_of_succ_le_succ hlen)
              hwrest trivial
            simpa [flushWord] using this
          | word w2 =>
            rcases hwrest with ⟨hw2, hw2w, hnw2, hwf2⟩
            rw [renderChunks, parseGo_append w2 (renderChunks rest2) [] hw2w,
              List.nil_append]
            have := ih rest2 w2 (by simp at hlen; omega) hwf2 hnw2
            rw [this]
            simp [flushWord, hw2]

theorem parse_render (l : List Chunk) (hwf : ChunkWF l) :
    parseChunks (renderChunks l) = l := by
  cases l with
  | nil => rfl
  | cons ch rest =>
    cases ch with
    | sep c =>
      have := parseGo_render_aux (Chunk.sep c :: rest).length (Chunk.sep c :: rest) []
        (Nat.le_refl _) hwf trivial
      simpa [parseChunks, flushWord] using this
    | word w =>
      rcases hwf with ⟨hw, hww, hnw, hwfr⟩
      unfold parseChunks
      rw [renderChunks, parseGo_append w (renderChunks rest) [] hww, List.nil_append]
      have := parseGo_render_aux rest.length rest w (Nat.le_refl _) hwfr hnw
      rw [this]
      simp [flushWord, hw]

theorem notWordHead_mapRule (toks : List (List Char)) (l : List Chunk)
    (h : notWordHead l) : notWordHead (mapRule toks l) := by
  cases l with
  | nil => trivial
  | cons ch rest =>
    cases ch with
    | word w => exact h.elim
    | sep c => trivial

theorem startsWithDot_mapRule (toks : List (List Char)) :
    ∀ (l : List Chunk), ChunkWF l → startsWithDot (mapRule toks l) = startsWithDot l := by
  intro l
  induction l with
  | nil => intro _; rfl
  | cons ch rest ih =>
    intro hwf
    cases ch with
    | sep c => rfl
    | word w =>
      rcases hwf with ⟨hw, _, _, _⟩
      cases w with
      | nil => exact (hw rfl).elim
      | cons c cs =>
        rw [mapRule]
        split <;> rfl

theorem mapRule_WF (toks : List (List Char)) :
    ∀ (l : List Chunk), ChunkWF l → ChunkWF (mapRule toks l) := by
  intro l
  induction l with
  | nil => intro _; trivial
  | cons ch rest ih =>
    intro hwf
    cases ch with
    | sep c =>
      rcases hwf with ⟨hc, hrest⟩
      exact ⟨hc, ih hrest⟩
    | word w =>
      rcases hwf with ⟨hw, hww, hnw, hrest⟩
      rw [mapRule]
      split
      · exact ⟨hw, hww, trivial, isWordChar_dot, ih hrest⟩
      · exact ⟨hw, hww, notWordHead_mapRule toks rest hnw, ih hrest⟩

theorem mapRule_sat (toks : List (List Char)) :
    ∀ (l : List Chunk), ChunkWF l → SatRule toks (mapRule toks l) := by
  intro l
  induction l with
  | nil => intro _; trivial
  | cons ch rest ih =>
    intro hwf
    cases ch with
    | sep c =>
      rcases hwf with ⟨_, hrest⟩
      exact ih hrest
    | word w =>
      rcases hwf with ⟨hw, hww, hnw, hrest⟩
      rw [mapRule]
      split
      case isTrue h =>
        exact ⟨fun _ => rfl, ih hrest⟩
      case isFalse h =>
        refine ⟨?_, ih hrest⟩
        intro hmem
        rw [startsWithDot_mapRule toks rest hrest]
        rcases Decidable.not_and_iff_or_not.mp h with h2 | h2
        · exact (h2 hmem).elim
        · cases hsd : startsWithDot rest
          · exact (h2 hsd).elim
          · rfl

theorem mapRule_id (toks : List (List Char)) :
    ∀ (l : List Chunk), SatRule toks l → mapRule toks l = l := by
  intro l
  induction l with
  | nil => intro _; rfl
  | cons ch rest ih =>
    intro hsat
    cases ch with
    | sep c =>
      rw [mapRule, ih hsat]
    | word w =>
      rcases hsat with ⟨hdot, hrest⟩
      rw [mapRule]
      split
      case isTrue h =>
        rw [hdot h.1] at h
        simp at h
      case isFalse h =>
        rw [ih hrest]

theorem mapRule_preserves_sat (t1 t2 : List (List Char)) :
    ∀ (l : List Chunk), SatRule t1 l → ChunkWF l → SatRule t1 (mapRule t2 l) := by
  intro l
  induction l with
  | nil => intro _ _; trivial
  | cons ch rest ih =>
    intro hsat hwf
    cases ch with
    | sep c =>
      rcases hwf with ⟨_, hrest⟩
      exact ih hsat hrest
    | word w =>
      rcases hsat with ⟨hdot, hsrest⟩
      rcases hwf with ⟨hw, hww, hnw, hwrest⟩
      rw [mapRule]
      split
      · exact ⟨fun _ => rfl, ih hsrest hwrest⟩
      · refine ⟨?_, ih hsrest hwrest⟩
        intro hmem
        rw [startsWithDot_mapRule t2 rest hwrest]
        exact hdot hmem

theorem isWs_space : isWs ' ' = true := by decide

theorem isWs_dot : isWs '.' = false := by decide

theorem isWordChar_space : isWordChar ' ' = false := by decide

theorem collapseWsChar_word_prefix : ∀ (w t : List Char),
    (∀ c ∈ w, isWs c = false) → collapseWsChar (w ++ t) = w ++ collapseWsChar t := by
  intro w
  induction w with
  | nil => intro t _; simp
  | cons c cs ih =>
    intro t hw
    have hc : isWs c = false := hw c (by simp)
    rw [List.cons_append]
    cases hct : cs ++ t with
    | nil =>
      rcases List.append_eq_nil.mp hct with ⟨h1, h2⟩
      subst h1; subst h2
      simp [collapseWsChar, hc]
    | cons d ds =>
      rw [collapseWsChar, if_neg (by simp [hc]), ← hct, ih t (fun x hx => hw x (by simp [hx]))]
      simp

theorem collapse_cons_word (w : List Char) (rest : List Chunk) :
    collapseChunks (Chunk.word w :: rest) = Chunk.word w :: collapseChunks rest := by
  cases rest with
  | nil => simp [collapseChunks, isWsSep]
  | cons ch2 rs => rw [collapseChunks, if_neg (by simp [isWsSep])]

theorem collapse_cons_sep_nonws (c : Char) (hc : isWs c = false) (rest : List Chunk) :
    collapseChunks (Chunk.sep c :: rest) = Chunk.sep c :: collapseChunks rest := by
  cases rest with
  | nil => simp [collapseChunks, isWsSep, hc]
  | cons ch2 rs => rw [collapseChunks, if_neg (by simp [isWsSep, hc])]

theorem collapse_head : ∀ (rest : List Chunk) (ch : Chunk), ∃ rest2,
    collapseChunks (ch :: rest) = (if isWsSep ch then Chunk.sep ' ' else ch) :: rest2 := by
  intro rest
  induction rest with
  | nil =>
    intro ch
    refine ⟨[], ?_⟩
    by_cases h : isWsSep ch
    · simp [collapseChunks, h]
    · simp [collapseChunks, h]
  | cons ch2 rs ih =>
    intro ch
    by_cases h : isWsSep ch
    · by_cases h2 : isWsSep ch2
      · rcases ih ch2 with ⟨r2, hr2⟩
        refine ⟨r2, ?_⟩
        rw [collapseChunks, if_pos h, if_pos h2, hr2, if_pos h2, if_pos h]
      · refine ⟨collapseChunks (ch2 :: rs), ?_⟩
        rw [collapseChunks, if_pos h, if_neg (by simp [h2]), if_pos h]
    · refine ⟨collapseChunks (ch2 :: rs), ?_⟩
      rw [collapseChunks, if_neg (by simp [h]), if_neg (by simp [h])]

theorem renderHead (ch : Chunk) (rest : List Chunk) (hwf : ChunkWF (ch :: rest)) :
    ∃ d t, renderChunks (ch :: rest) = d :: t ∧ isWs d = isWsSep ch := by
  cases ch with
  | sep c => exact ⟨c, renderChunks rest, rfl, rfl⟩
  | word w =>
    rcases hwf with ⟨hw, hww, _, _⟩
    cases w with
    | nil => exact (hw rfl).elim
    | cons c cs =>
      refine ⟨c, cs ++ renderChunks rest, rfl, ?_⟩
      rw [word_not_ws c (hww c (by simp)), isWsSep]

theorem collapse_bridge : ∀ (l : List Chunk), ChunkWF l →
    collapseWsChar (renderChunks l) = renderChunks (collapseChunks l) := by
  intro l
  induction l with
  | nil => intro _; rfl
  | cons ch rest ih =>
    intro hwf
    cases ch with
    | word w =>
      rcases hwf with ⟨hw, hww, hnw, hrest⟩
      rw [renderChunks, collapseWsChar_word_prefix w (renderChunks rest)
        (fun c hc => word_not_ws c (hww c hc)), ih hrest, collapse_cons_word, renderChunks]
    | sep c =>
      rcases hwf with ⟨hc, hrest⟩
      by_cases hws : isWs c
      · cases rest with
        | nil => simp [renderChunks, collapseWsChar, hws, collapseChunks, isWsSep]
        | cons r1 rs =>
          rcases renderHead r1 rs hrest with ⟨d, t, hdt, hwd⟩
          rw [renderChunks, hdt]
          by_cases hr1 : isWsSep r1
          · rw [collapseWsChar, if_pos hws, if_pos (by rw [hwd]; exact hr1), ← hdt, ih hrest,
              collapseChunks, if_pos (by simp [isWsSep, hws]), if_pos hr1]
          · rw [collapseWsChar, if_pos hws, if_neg (by rw [hwd]; simp [hr1]), ← hdt, ih hrest,
              collapseChunks, if_pos (by simp [isWsSep, hws]), if_neg (by simp [hr1]),
              renderChunks]
      · cases rest with
        | nil => simp [renderChunks, collapseWsChar, hws, collapseChunks, isWsSep]
        | cons r1 rs =>
          rcases renderHead r1 rs hrest with ⟨d, t, hdt, _⟩
          rw [renderChunks, hdt, collapseWsChar, if_neg (by simp [hws]), ← hdt, ih hrest,
            collapse_cons_sep_nonws c (by simp [hws]), renderChunks]

theorem collapse_WF : ∀ (l : List Chunk), ChunkWF l → ChunkWF (collapseChunks l) := by
  intro l
  induction l with
  | nil => intro _; trivial
  | cons ch rest ih =>
    intro hwf
    cases ch with
    | word w =>
      rcases hwf with ⟨hw, hww, hnw, hrest⟩
      rw [collapse_cons_word]
      refine ⟨hw, hww, ?_, ih hrest⟩
      cases rest with
      | nil => trivial
      | cons r1 rs =>
        cases r1 with
        | word _ => exact hnw.elim
        | sep c2 =>
          rcases collapse_head rs (Chunk.sep c2) with ⟨r2, hr2⟩
          rw [hr2]
          by_cases h : isWsSep (Chunk.sep c2)
          · rw [if_pos h]; trivial
          · rw [if_neg h]; trivial
    | sep c =>
      rcases hwf with ⟨hc, hrest⟩
      by_cases hws : isWs c
      · cases rest with
        | nil =>
          have hcc : collapseChunks [Chunk.sep c] = [Chunk.sep ' '] := by
            simp [collapseChunks, isWsSep, hws]
          rw [hcc]
          exact ⟨isWordChar_space, trivial⟩
        | cons r1 rs =>
          by_cases hr1 : isWsSep r1
          · rw [collapseChunks, if_pos (by simp [isWsSep, hws]), if_pos hr1]
            exact ih hrest
          · rw [collapseChunks, if_pos (by simp [isWsSep, hws]), if_neg (by simp [hr1])]
            exact ⟨isWordChar_space, ih hrest⟩
      · rw [collapse_cons_sep_nonws c (by simp [hws])]
        exact ⟨hc, ih hrest⟩

theorem collapse_collapsed : ∀ (l : List Chunk), Collapsed (collapseChunks l) := by
  intro l
  induction l with
  | nil => trivial
  | cons ch rest ih =>
    cases rest with
    | nil =>
      by_cases h : isWsSep ch
      · simp only [collapseChunks, if_pos h]
        exact ⟨fun _ => ⟨rfl, trivial⟩, trivial⟩
      · simp only [collapseChunks, if_neg h]
        exact ⟨fun hx => (h hx).elim, trivial⟩
    | cons r1 rs =>
      by_cases h : isWsSep ch
      · by_cases hr1 : isWsSep r1
        · rw [collapseChunks, if_pos h, if_pos hr1]
          exact ih
        · rw [collapseChunks, if_pos h, if_neg (by simp [hr1])]
          refine ⟨fun _ => ⟨rfl, ?_⟩, ih⟩
          rcases collapse_head rs r1 with ⟨r2, hr2⟩
          rw [hr2, if_neg (by simp [hr1])]
          exact Bool.eq_false_iff.mpr hr1
      · rw [collapseChunks, if_neg (by simp [h])]
        exact ⟨fun hx => (h hx).elim, ih⟩

theorem collapse_id : ∀ (l : List Chunk), Collapsed l → collapseChunks l = l := by
  intro l
  induction l with
  | nil => intro _; rfl
  | cons ch rest ih =>
    intro hcol
    rcases hcol with ⟨hpair, hrest⟩
    cases rest with
    | nil =>
      by_cases h : isWsSep ch
      · rw [collapseChunks, if_pos h, (hpair h).1]
      · rw [collapseChunks, if_neg h]
    | cons r1 rs =>
      by_cases h : isWsSep ch
      · rcases hpair h with ⟨hch, hnws⟩
        have hr1 : isWsSep r1 = false := hnws
        rw [collapseChunks, if_pos h, if_neg (by simp [hr1]), ih hrest, hch]
      · rw [collapseChunks, if_neg (by simp [h]), ih hrest]

theorem startsWithDot_eq_sep (l : List Chunk) (hwf : ChunkWF l)
    (h : startsWithDot l = true) : ∃ r, l = Chunk.sep '.' :: r := by
  cases l with
  | nil => simp [startsWithDot] at h
  | cons ch rest =>
    cases ch with
    | sep c =>
      have : c = '.' := by simpa [startsWithDot] using h
      subst this
      exact ⟨rest, rfl⟩
    | word w =>
      rcases hwf with ⟨hw, hww, _, _⟩
      cases w with
      | nil => exact (hw rfl).elim
      | cons c cs =>
        have hcd : c = '.' := by simpa [startsWithDot] using h
        have := hww c (by simp)
        rw [hcd, isWordChar_dot] at this
        simp at this

theorem collapse_sat (toks : List (List Char)) :
    ∀ (l : List Chunk), SatRule toks l → ChunkWF l → SatRule toks (collapseChunks l) := by
  intro l
  induction l with
  | nil => intro _ _; trivial
  | cons ch rest ih =>
    intro hsat hwf
    cases ch with
    | word w =>
      rcases hsat with ⟨hdot, hsrest⟩
      rcases hwf with ⟨hw, hww, hnw, hwrest⟩
      rw [collapse_cons_word]
      refine ⟨?_, ih hsrest hwrest⟩
      intro hmem
      rcases startsWithDot_eq_sep rest hwrest (hdot hmem) with ⟨r2, hr2⟩
      subst hr2
      rw [collapse_cons_sep_nonws '.' isWs_dot]
      rfl
    | sep c =>
      rcases hwf with ⟨hc, hwrest⟩
      have hsrest : SatRule toks rest := hsat
      by_cases hws : isWs c
      · cases rest with
        | nil => simp [collapseChunks, isWsSep, hws, SatRule]
        | cons r1 rs =>
          by_cases hr1 : isWsSep r1
          · rw [collapseChunks, if_pos (by simp [isWsSep, hws]), if_pos hr1]
            exact ih hsrest hwrest
          · rw [collapseChunks, if_pos (by simp [isWsSep, hws]), if_neg (by simp [hr1])]
            exact ih hsrest hwrest
      · rw [collapse_cons_sep_nonws c (by simp [hws])]
        exact ih hsrest hwrest

theorem dropLead_bridge : ∀ (l : List Chunk), ChunkWF l →
    (renderChunks l).dropWhile isWs = renderChunks (dropLeadWsChunks l) := by
  intro l
  induction l with
  | nil => intro _; rfl
  | cons ch rest ih =>
    intro hwf
    cases ch with
    | word w =>
      rcases hwf with ⟨hw, hww, _, _⟩
      cases w with
      | nil => exact (hw rfl).elim
      | cons c cs =>
        have hc : isWs c = false := word_not_ws c (hww c (by simp))
        rw [dropLeadWsChunks, if_neg (by simp [isWsSep])]
        simp [renderChunks, List.dropWhile_cons, hc]
    | sep c =>
      rcases hwf with ⟨hc, hrest⟩
      by_cases hws : isWs c
      · rw [dropLeadWsChunks, if_pos (by simp [isWsSep, hws])]
        simp only [renderChunks, List.dropWhile_cons, hws]
        exact ih hrest
      · rw [dropLeadWsChunks, if_neg (by simp [isWsSep, hws])]
        simp [renderChunks, List.dropWhile_cons, hws]

theorem dropTrailWs_word_prefix : ∀ (w t : List Char),
    (∀ c ∈ w, isWs c = false) → dropTrailWs (w ++ t) = w ++ dropTrailWs t := by
  intro w
  induction w with
  | nil => intro t _; simp
  | cons c cs ih =>
    intro t hw
    have hc : isWs c = false := hw c (by simp)
    rw [List.cons_append, dropTrailWs]
    rw [ih t (fun x hx => hw x (by simp [hx]))]
    simp [hc]

theorem dropTrail_shape (ch : Chunk) (rest : List Chunk) :
    dropTrailWsChunks (ch :: rest) = [] ∨
    ∃ r2, dropTrailWsChunks (ch :: rest) = ch :: r2 := by
  rw [dropTrailWsChunks]
  by_cases h : (dropTrailWsChunks rest).isEmpty && isWsSep ch
  · rw [if_pos h]
    exact Or.inl rfl
  · rw [if_neg h]
    exact Or.inr ⟨dropTrailWsChunks rest, rfl⟩

theorem notWordHead_dropTrail (l : List Chunk) (h : notWordHead l) :
    notWordHead (dropTrailWsChunks l) := by
  cases l with
  | nil => trivial
  | cons ch rest =>
    rcases dropTrail_shape ch rest with h2 | ⟨r2, h2⟩
    · rw [h2]; trivial
    · rw [h2]
      cases ch with
      | word _ => exact h.elim
      | sep _ => trivial

theorem dropTrail_WF : ∀ (l : List Chunk), ChunkWF l → ChunkWF (dropTrailWsChunks l) := by
  intro l
  induction l with
  | nil => intro _; trivial
  | cons ch rest ih =>
    intro hwf
    rw [dropTrailWsChunks]
    by_cases h : (dropTrailWsChunks rest).isEmpty && isWsSep ch
    · rw [if_pos h]; trivial
    · rw [if_neg h]
      cases ch with
      | word w =>
        rcases hwf with ⟨hw, hww, hnw, hrest⟩
        exact ⟨hw, hww, notWordHead_dropTrail rest hnw, ih hrest⟩
      | sep c =>
        rcases hwf with ⟨hc, hrest⟩
        exact ⟨hc, ih hrest⟩

theorem renderChunks_isEmpty (l : List Chunk) (hwf : ChunkWF l) :
    (renderChunks l).isEmpty = l.isEmpty := by
  cases l with
  | nil => rfl
  | cons ch rest =>
    have := renderChunks_ne_nil (ch :: rest) hwf (by simp)
    simp [List.isEmpty_iff, this]

theorem dropTrail_bridge : ∀ (l : List Chunk), ChunkWF l →
    dropTrailWs (renderChunks l) = renderChunks (dropTrailWsChunks l) := by
  intro l
  induction l with
  | nil => intro _; rfl
  | cons ch rest ih =>
    intro hwf
    cases ch with
    | word w =>
      rcases hwf with ⟨hw, hww, hnw, hrest⟩
      rw [renderChunks, dropTrailWs_word_prefix w (renderChunks rest)
        (fun c hc => word_not_ws c (hww c hc)), ih hrest, dropTrailWsChunks]
      rw [if_neg (by simp [isWsSep])]
      rfl
    | sep c =>
      rcases hwf with ⟨hc, hrest⟩
      rw [renderChunks, dropTrailWs]
      rw [ih hrest]
      rw [renderChunks_isEmpty _ (dropTrail_WF rest hrest)]
      rw [dropTrailWsChunks]
      by_cases h : ((dropTrailWsChunks rest).isEmpty && isWs c) = true
      · rw [if_pos h, if_pos (by simpa [isWsSep] using h)]
        rfl
      · rw [if_neg h, if_neg (by simpa [isWsSep] using h)]
        rfl

theorem dropLead_WF : ∀ (l : List Chunk), ChunkWF l → ChunkWF (dropLeadWsChunks l) := by
  intro l
  induction l with
  | nil => intro _; trivial
  | cons ch rest ih =>
    intro hwf
    rw [dropLeadWsChunks]
    by_cases h : isWsSep ch
    · rw [if_pos h]
      cases ch with
      | word w => simp [isWsSep] at h
      | sep c => exact ih hwf.2
    · rw [if_neg h]
      exact hwf

theorem dropLead_sat (toks : List (List Char)) :
    ∀ (l : List Chunk), SatRule toks l → SatRule toks (dropLeadWsChunks l) := by
  intro l
  induction l with
  | nil => intro _; trivial
  | cons ch rest ih =>
    intro hsat
    rw [dropLeadWsChunks]
    by_cases h : isWsSep ch
    · rw [if_pos h]
      cases ch with
      | word w => simp [isWsSep] at h
      | sep c => exact ih hsat
    · rw [if_neg h]
      exact hsat

theorem dropTrail_sat (toks : List (List Char)) :
    ∀ (l : List Chunk), SatRule toks l → ChunkWF l → SatRule toks (dropTrailWsChunks l) := by
  intro l
  induction l with
  | nil => intro _ _; trivial
  | cons ch rest ih =>
    intro hsat hwf
    rw [dropTrailWsChunks]
    by_cases h : ((dropTrailWsChunks rest).isEmpty && isWsSep ch) = true
    · rw [if_pos h]; trivial
    · rw [if_neg h]
      cases ch with
      | word w =>
        rcases hsat with ⟨hdot, hsrest⟩
        rcases hwf with ⟨hw, hww, hnw, hwrest⟩
        refine ⟨?_, ih hsrest hwrest⟩
        intro hmem
        rcases startsWithDot_eq_sep rest hwrest (hdot hmem) with ⟨r2, hr2⟩
        subst hr2
        rw [dropTrailWsChunks]
        rw [if_neg (by simp [isWsSep, isWs_dot])]
        rfl
      | sep c =>
        exact ih hsat hwf.2

theorem dropLead_collapsed : ∀ (l : List Chunk), Collapsed l →
    Collapsed (dropLeadWsChunks l) := by
  intro l
  induction l with
  | nil => intro _; trivial
  | cons ch rest ih =>
    intro hcol
    rw [dropLeadWsChunks]
    by_cases h : isWsSep ch
    · rw [if_pos h]
      exact ih hcol.2
    · rw [if_neg h]
      exact hcol

theorem dropTrail_collapsed : ∀ (l : List Chunk), Collapsed l →
    Collapsed (dropTrailWsChunks l) := by
  intro l
  induction l with
  | nil => intro _; trivial
  | cons ch rest ih =>
    intro hcol
    rcases hcol with ⟨hpair, hrest⟩
    rw [dropTrailWsChunks]
    by_cases h : ((dropTrailWsChunks rest).isEmpty && isWsSep ch) = true
    · rw [if_pos h]; trivial
    · rw [if_neg h]
      refine ⟨?_, ih hrest⟩
      intro hws
      refine ⟨(hpair hws).1, ?_⟩
      have hnws := (hpair hws).2
      cases rest with
      | nil => trivial
      | cons r1 rs =>
        have hr1 : isWsSep r1 = false := hnws
        rcases dropTrail_shape r1 rs with h2 | ⟨r2, h2⟩
        · rw [h2]; trivial
        · rw [h2]
          exact hr1

theorem dropLead_noLead : ∀ (l : List Chunk), notWsHead (dropLeadWsChunks l) := by
  intro l
  induction l with
  | nil => trivial
  | cons ch rest ih =>
    rw [dropLeadWsChunks]
    by_cases h : isWsSep ch
    · rw [if_pos h]
      exact ih
    · rw [if_neg h]
      exact Bool.eq_false_iff.mpr h

theorem dropTrail_notWsHead : ∀ (l : List Chunk), notWsHead l →
    notWsHead (dropTrailWsChunks l) := by
  intro l h
  cases l with
  | nil => trivial
  | cons ch rest =>
    rcases dropTrail_shape ch rest with h2 | ⟨r2, h2⟩
    · rw [h2]; trivial
    · rw [h2]
      exact h

theorem dropTrail_noTrail : ∀ (l : List Chunk), noTrailWsC (dropTrailWsChunks l) := by
  intro l
  induction l with
  | nil => trivial
  | cons ch rest ih =>
    rw [dropTrailWsChunks]
    by_cases h : ((dropTrailWsChunks rest).isEmpty && isWsSep ch) = true
    · rw [if_pos h]; trivial
    · rw [if_neg h]
      cases hr : dropTrailWsChunks rest with
      | nil =>
        have hch : isWsSep ch = false := by
          cases hb : isWsSep ch
          · rfl
          · exact (h (by rw [hr, hb]; rfl)).elim
        simp [noTrailWsC, hch]
      | cons d ds =>
        have h2 : noTrailWsC (d :: ds) := by rw [← hr]; exact ih
        unfold noTrailWsC at h2 ⊢
        rwa [List.getLast?_cons_cons]

theorem dropLead_id (l : List Chunk) (h : notWsHead l) : dropLeadWsChunks l = l := by
  cases l with
  | nil => rfl
  | cons ch rest =>
    have hch : isWsSep ch = false := h
    rw [dropLeadWsChunks, if_neg (by simp [hch])]

theorem dropTrail_id : ∀ (l : List Chunk), noTrailWsC l → dropTrailWsChunks l = l := by
  intro l
  induction l with
  | nil => intro _; rfl
  | cons ch rest ih =>
    intro hnt
    cases rest with
    | nil =>
      have hch : isWsSep ch = false := by simpa [noTrailWsC] using hnt
      rw [dropTrailWsChunks]
      rw [if_neg (by simp [hch])]
      rfl
    | cons r1 rs =>
      have h2 : noTrailWsC (r1 :: rs) := by
        unfold noTrailWsC at hnt ⊢
        rwa [List.getLast?_cons_cons] at hnt
      have hr := ih h2
      rw [dropTrailWsChunks, hr, if_neg (by simp)]

theorem trim_bridge (l : List Chunk) (hwf : ChunkWF l) :
    trimChar (renderChunks l) = renderChunks (trimChunks l) := by
  unfold trimChar trimChunks
  rw [dropLead_bridge l hwf, dropTrail_bridge _ (dropLead_WF l hwf)]

theorem trim_id (l : List Chunk) (h1 : notWsHead l) (h2 : noTrailWsC l) :
    trimChunks l = l := by
  unfold trimChunks
  rw [dropLead_id l h1, dropTrail_id l h2]

theorem preprocess_chunk_eq (s : List Char) (hne : ¬ s = []) :
    preprocessStreetAddress s =
      renderChunks (trimChunks (collapseChunks (mapRule streetAbbrevs
        (mapRule compoundDirs (mapRule singleDirs (parseChunks s)))))) := by
  have w0 := parseChunks_WF s
  have w1 := mapRule_WF singleDirs _ w0
  have w2 := mapRule_WF compoundDirs _ w1
  have w3 := mapRule_WF streetAbbrevs _ w2
  unfold preprocessStreetAddress
  rw [if_neg hne]
  rw [replTok_eq singleDirs s]
  rw [replTok_eq compoundDirs _, parse_render _ w1]
  rw [replTok_eq streetAbbrevs _, parse_render _ w2]
  rw [collapse_bridge _ w3]
  rw [trim_bridge _ (collapse_WF _ w3)]

/-- C9: preprocessStreetAddress is idempotent — the directional and
street-type punctuation passes, the whitespace collapse and the trim are
all stable under reapplication, so applying the function twice gives the
same string as applying it once. -/
theorem preprocessStreetAddress_idempotent :
    ∀ s : String,
      preprocessStreetAddressS (preprocessStreetAddressS s) = preprocessStreetAddressS s := by
  have list_version : ∀ t : List Char,
      preprocessStreetAddress (preprocessStreetAddress t) = preprocessStreetAddress t := by
    intro t
    by_cases ht : t = []
    · subst ht
      rfl
    · rw [preprocess_chunk_eq t ht]
      have wP := parseChunks_WF t
      have w1 := mapRule_WF singleDirs _ wP
      have w2 := mapRule_WF compoundDirs _ w1
      have w3 := mapRule_WF streetAbbrevs _ w2
      have wC := collapse_WF _ w3
      have wDL := dropLead_WF _ wC
      have wL := dropTrail_WF _ wDL
      have sat1 : SatRule singleDirs
          (trimChunks (collapseChunks (mapRule streetAbbrevs
            (mapRule compoundDirs (mapRule singleDirs (parseChunks t)))))) := by
        unfold trimChunks
        exact dropTrail_sat _ _ (dropLead_sat _ _ (collapse_sat _ _
          (mapRule_preserves_sat _ _ _ (mapRule_preserves_sat _ _ _
            (mapRule_sat singleDirs _ wP) w1) w2) w3)) wDL
      have sat2 : SatRule compoundDirs
          (trimChunks (collapseChunks (mapRule streetAbbrevs
            (mapRule compoundDirs (mapRule singleDirs (parseChunks t)))))) := by
        unfold trimChunks
        exact dropTrail_sat _ _ (dropLead_sat _ _ (collapse_sat _ _
          (mapRule_preserves_sat _ _ _ (mapRule_sat compoundDirs _ w1) w2) w3)) wDL
      have sat3 : SatRule streetAbbrevs
          (trimChunks (collapseChunks (mapRule streetAbbrevs
            (mapRule compoundDirs (mapRule singleDirs (parseChunks t)))))) := by
        unfold trimChunks
        exact dropTrail_sat _ _ (dropLead_sat _ _ (collapse_sat _ _
          (mapRule_sat streetAbbrevs _ w2) w3)) wDL
      have colL : Collapsed
          (trimChunks (collapseChunks (mapRule streetAbbrevs
            (mapRule compoundDirs (mapRule singleDirs (parseChunks t)))))) := by
        unfold trimChunks
        exact dropTrail_collapsed _ (dropLead_collapsed _ (collapse_collapsed _))
      have nlL : notWsHead
          (trimChunks (collapseChunks (mapRule streetAbbrevs
            (mapRule compoundDirs (mapRule singleDirs (parseChunks t)))))) := by
        unfold trimChunks
        exact dropTrail_notWsHead _ (dropLead_noLead _)
      have ntL : noTrailWsC
          (trimChunks (collapseChunks (mapRule streetAbbrevs
            (mapRule compoundDirs (mapRule singleDirs (parseChunks t)))))) := by
        unfold trimChunks
        exact dropTrail_noTrail _
      have wLt : ChunkWF
          (trimChunks (collapseChunks (mapRule streetAbbrevs
            (mapRule compoundDirs (mapRule singleDirs (parseChunks t)))))) := by
        unfold trimChunks
        exact wL
      by_cases hrl : renderChunks (trimChunks (collapseChunks (mapRule streetAbbrevs
          (mapRule compoundDirs (mapRule singleDirs (parseChunks t)))))) = []
      · rw [hrl]
        rfl
      · rw [preprocess_chunk_eq _ hrl]
        rw [parse_render _ wLt]
        rw [mapRule_id singleDirs _ sat1]
        rw [mapRule_id compoundDirs _ sat2]
        rw [mapRule_id streetAbbrevs _ sat3]
        rw [collapse_id _ colL]
        rw [trim_id _ nlL ntL]
  intro s
  unfold preprocessStreetAddressS
  have hround : ∀ l : List Char, (List.asString l).toList = l := fun l => rfl
  rw [hround, list_version]
